import Mathlib

/-! # hyperacc: a composable access-control rule engine

A shallow embedding of the Go package `hyperacc` (files `errors.go`, `access.go`,
`combinators.go`, `custom.go`, `orgs.go`, `roles.go`, `utils.go`) followed by
theorems about the combinators, the controller and the predicate rules.

Modelling conventions.

* A Go value of interface type `error` is an `Option GoError`; `nil` is `none`.
* `GoError` has one constructor per concrete error type the package can meet:
  `*AccessError`, the `*fmt.wrapError` built by `fmt.Errorf` with a `%w` verb,
  and an error without an `Unwrap` method (`errors.New`, `fmt.Errorf` without `%w`).
* A rule may be a closure with side effects (`Custom`), so `Check` threads an explicit
  state of an arbitrary type `σ`: `Check ctx s` returns the error and the state left
  behind.  The identity reads of the transaction context are side-effect free.
* `fmt.Sprintf` is unfolded to string concatenation at each call site; the format
  string is quoted in the comment next to it.
* A call that panics does not return.  The OU rules panic on a nil certificate, so their
  `Check` has the result type `CheckResult`; `Rule σ` is the type of the rules whose
  `Check` always returns, `PRule σ` keeps the panic, and the combinators and the
  controller are embedded on both, the two embeddings agreeing on `Rule σ`.
-/

namespace hyperacc

/-! ## errors.go -/

/-- Concrete error values.  `accessError` is `*AccessError` with its two fields,
`wrapError` is `*fmt.wrapError` (message, wrapped error), `errorString` is an error
that has no `Unwrap` method. -/
inductive GoError where
  | accessError (Reason : String) (Cause : Option GoError)
  | wrapError (msg : String) (err : GoError)
  | errorString (s : String)

namespace GoError

/-- Method `Error()`.  For `*AccessError`:
`"access error: %s: %v"` with the reason and the cause when the cause is not nil,
`"access error: " + Reason` otherwise. -/
def Error : GoError → String
  | accessError reason (some cause) => "access error: " ++ reason ++ ": " ++ cause.Error
  | accessError reason none => "access error: " ++ reason
  | wrapError msg _ => msg
  | errorString s => s

/-- Method `Unwrap()`: the cause of an `*AccessError`, the wrapped error of a
`*fmt.wrapError`; an `errorString` has none. -/
def Unwrap : GoError → Option GoError
  | accessError _ cause => cause
  | wrapError _ err => some err
  | errorString _ => none

/-- The walk of `errors.As(err, &e)` for a target of type `*AccessError`: the first
`*AccessError` met along the `Unwrap` chain. -/
def asAccessError : GoError → Option GoError
  | accessError reason cause => some (accessError reason cause)
  | wrapError _ err => err.asAccessError
  | errorString _ => none

/-- Decision procedure for equality of error values. -/
def decEq : (a b : GoError) → Decidable (a = b)
  | accessError r1 none, accessError r2 none =>
    if h : r1 = r2 then isTrue (by rw [h]) else isFalse (by intro h2; cases h2; exact h rfl)
  | accessError r1 (some c1), accessError r2 (some c2) =>
    match decEq c1 c2 with
    | isTrue hc =>
      if h : r1 = r2 then isTrue (by rw [h, hc])
      else isFalse (by intro h2; cases h2; exact h rfl)
    | isFalse hc => isFalse (by intro h2; cases h2; exact hc rfl)
  | accessError _ none, accessError _ (some _) => isFalse (by intro h2; cases h2)
  | accessError _ (some _), accessError _ none => isFalse (by intro h2; cases h2)
  | wrapError m1 e1, wrapError m2 e2 =>
    match decEq e1 e2 with
    | isTrue hc =>
      if h : m1 = m2 then isTrue (by rw [h, hc])
      else isFalse (by intro h2; cases h2; exact h rfl)
    | isFalse hc => isFalse (by intro h2; cases h2; exact hc rfl)
  | errorString s1, errorString s2 =>
    if h : s1 = s2 then isTrue (by rw [h]) else isFalse (by intro h2; cases h2; exact h rfl)
  | accessError _ _, wrapError _ _ => isFalse (by intro h2; cases h2)
  | accessError _ _, errorString _ => isFalse (by intro h2; cases h2)
  | wrapError _ _, accessError _ _ => isFalse (by intro h2; cases h2)
  | wrapError _ _, errorString _ => isFalse (by intro h2; cases h2)
  | errorString _, accessError _ _ => isFalse (by intro h2; cases h2)
  | errorString _, wrapError _ _ => isFalse (by intro h2; cases h2)

instance : DecidableEq GoError := decEq

end GoError

/-- Function `NewAccessError(reason)`: `&AccessError{Reason: reason}`, the cause stays nil. -/
def NewAccessError (reason : String) : GoError :=
  GoError.accessError reason none

/-- Function `WrapAccessError(reason, cause)`: `&AccessError{Reason: reason, Cause: cause}`. -/
def WrapAccessError (reason : String) (cause : Option GoError) : GoError :=
  GoError.accessError reason cause

/-- Function `AsAccessError(err)`: `var e *AccessError; return e, errors.As(err, &e)`.
`errors.As` reports false on a nil error and leaves `e` nil when nothing matches. -/
def AsAccessError (err : Option GoError) : Option GoError × Bool :=
  match err with
  | none => (none, false)
  | some e =>
    match e.asAccessError with
    | some a => (some a, true)
    | none => (none, false)

/-- Function `fmt.Errorf(prefix + "%w", err)`: a `*fmt.wrapError` whose message is the prefix
followed by `err.Error()` and whose `Unwrap` is `err`. -/
def Errorf_w (pfx : String) (err : GoError) : GoError :=
  GoError.wrapError (pfx ++ err.Error) err

/-- The verb `%v` applied to a `[]string`: the elements separated by one blank,
within square brackets. -/
def fmtStrings (xs : List String) : String :=
  "[" ++ " ".intercalate xs ++ "]"

/-- Function `slices.Contains(s, v)`. -/
def slices.Contains (s : List String) (v : String) : Bool :=
  s.contains v

/-! ## The transaction context (external collaborator)

Only what the package reads: the client identity of
`contractapi.TransactionContextInterface` with the five methods of `cid.ClientIdentity`
the rules call.  A Go result `(value, err)` is an `Except GoError value`: the code never
looks at the value once `err != nil`.  `GetX509Certificate` returns a pointer
`*x509.Certificate` that may be nil while the error is nil too (an identity that is not an
X.509 one): `.ok none` is that result `(nil, nil)`. -/

/-- The part of `pkix.Name` the rules read. -/
structure Name where
  OrganizationalUnit : List String

/-- The part of `x509.Certificate` the rules read. -/
structure Certificate where
  Subject : Name

/-- Interface `cid.ClientIdentity`. -/
structure ClientIdentity where
  GetID : Except GoError String
  GetMSPID : Except GoError String
  GetAttributeValue : String → Except GoError (String × Bool)
  AssertAttributeValue : String → String → Option GoError
  GetX509Certificate : Except GoError (Option Certificate)

/-- Interface `contractapi.TransactionContextInterface`. -/
structure TransactionContext where
  GetClientIdentity : ClientIdentity

/-! ## access.go -/

/-- Interface `Rule`: one method `Check(ctx) error`.  The state `σ` stands for whatever
a rule's closure can observe and change between calls. -/
structure Rule (σ : Type) where
  Check : TransactionContext → σ → Option GoError × σ

/-- Struct `controller`. -/
structure controller (σ : Type) where
  rules : List (Rule σ)

/-- Function `New(rules...)`. -/
def New {σ : Type} (rules : List (Rule σ)) : controller σ :=
  { rules := rules }

/-- The `for _, rule := range c.rules` loop of `controller.Check`: return the first
non-nil error at once. -/
def controller.loop {σ : Type} (ctx : TransactionContext) :
    List (Rule σ) → σ → Option GoError × σ
  | [], s => (none, s)
  | rule :: rest, s =>
    match rule.Check ctx s with
    | (some err, s1) => (some err, s1)
    | (none, s1) => controller.loop ctx rest s1

/-- Method `(c *controller) Check(ctx)`. -/
def controller.Check {σ : Type} (c : controller σ) (ctx : TransactionContext) (s : σ) :
    Option GoError × σ :=
  if c.rules.length = 0 then (none, s)
  else controller.loop ctx c.rules s

/-- Function `CheckAccess(ctx, rules...)`: `c := New(rules...); return c.Check(ctx)`. -/
def CheckAccess {σ : Type} (ctx : TransactionContext) (rules : List (Rule σ)) (s : σ) :
    Option GoError × σ :=
  (New rules).Check ctx s

/-! ## combinators.go -/

/-- The entry `fmt.Sprintf("rule %d: %v", i+1, err)`; the argument `pos` is `i+1`. -/
def ruleEntry (pos : Nat) (err : GoError) : String :=
  "rule " ++ toString pos ++ ": " ++ err.Error

/-- Struct `AndRule`. -/
structure AndRule (σ : Type) where
  rules : List (Rule σ)

/-- Function `And(rules...)`. -/
def And {σ : Type} (rules : List (Rule σ)) : AndRule σ :=
  { rules := rules }

/-- The `for i, rule := range r.rules` loop of `AndRule.Check`, from index `i` with
the entries appended so far: every rule is called, a failure appends its entry. -/
def AndRule.loop {σ : Type} (ctx : TransactionContext) :
    List (Rule σ) → Nat → List String → σ → List String × σ
  | [], _, errors, s => (errors, s)
  | rule :: rest, i, errors, s =>
    match rule.Check ctx s with
    | (some err, s1) => AndRule.loop ctx rest (i + 1) (errors ++ [ruleEntry (i + 1) err]) s1
    | (none, s1) => AndRule.loop ctx rest (i + 1) errors s1

/-- Method `(r *AndRule) Check(ctx)`: `"AND rule failed: %s"` over
`strings.Join(errors, "; ")` when `len(errors) > 0`, nil otherwise. -/
def AndRule.Check {σ : Type} (r : AndRule σ) (ctx : TransactionContext) (s : σ) :
    Option GoError × σ :=
  match AndRule.loop ctx r.rules 0 [] s with
  | (errors, s1) =>
    if errors.length > 0 then
      (some (NewAccessError ("AND rule failed: " ++ "; ".intercalate errors)), s1)
    else (none, s1)

/-- An `*AndRule` used where a `Rule` is expected. -/
def AndRule.toRule {σ : Type} (r : AndRule σ) : Rule σ :=
  { Check := r.Check }

/-- Struct `OrRule`. -/
structure OrRule (σ : Type) where
  rules : List (Rule σ)

/-- Function `Or(rules...)`. -/
def Or {σ : Type} (rules : List (Rule σ)) : OrRule σ :=
  { rules := rules }

/-- The `for i, rule := range r.rules` loop of `OrRule.Check`: `none` is the
`return nil` taken at the first rule that passes, `some errors` is the loop running
to its end with one entry per rule. -/
def OrRule.loop {σ : Type} (ctx : TransactionContext) :
    List (Rule σ) → Nat → List String → σ → Option (List String) × σ
  | [], _, errors, s => (some errors, s)
  | rule :: rest, i, errors, s =>
    match rule.Check ctx s with
    | (none, s1) => (none, s1)
    | (some err, s1) => OrRule.loop ctx rest (i + 1) (errors ++ [ruleEntry (i + 1) err]) s1

/-- Method `(r *OrRule) Check(ctx)`. -/
def OrRule.Check {σ : Type} (r : OrRule σ) (ctx : TransactionContext) (s : σ) :
    Option GoError × σ :=
  if r.rules.length = 0 then
    (some (NewAccessError "OR rule: no rules defined"), s)
  else
    match OrRule.loop ctx r.rules 0 [] s with
    | (none, s1) => (none, s1)
    | (some errors, s1) =>
      (some (NewAccessError
        ("OR rule failed: none of the rules passed: " ++ "; ".intercalate errors)), s1)

/-- An `*OrRule` used where a `Rule` is expected. -/
def OrRule.toRule {σ : Type} (r : OrRule σ) : Rule σ :=
  { Check := r.Check }

/-- Struct `NotRule`. -/
structure NotRule (σ : Type) where
  rule : Rule σ

/-- Function `Not(rule)`. -/
def Not {σ : Type} (rule : Rule σ) : NotRule σ :=
  { rule := rule }

/-- Method `(r *NotRule) Check(ctx)`. -/
def NotRule.Check {σ : Type} (r : NotRule σ) (ctx : TransactionContext) (s : σ) :
    Option GoError × σ :=
  match r.rule.Check ctx s with
  | (none, s1) => (some (NewAccessError "NOT rule: rule should not pass"), s1)
  | (some _, s1) => (none, s1)

/-- A `*NotRule` used where a `Rule` is expected. -/
def NotRule.toRule {σ : Type} (r : NotRule σ) : Rule σ :=
  { Check := r.Check }

/-! ## custom.go -/

/-- Struct `CustomRule`. -/
structure CustomRule (σ : Type) where
  checkFunc : TransactionContext → σ → Option GoError × σ
  name : String

/-- Function `Custom(name, checkFunc)`. -/
def Custom {σ : Type} (name : String)
    (checkFunc : TransactionContext → σ → Option GoError × σ) : CustomRule σ :=
  { checkFunc := checkFunc, name := name }

/-- Method `(r *CustomRule) Check(ctx)`. -/
def CustomRule.Check {σ : Type} (r : CustomRule σ) (ctx : TransactionContext) (s : σ) :
    Option GoError × σ :=
  r.checkFunc ctx s

/-- A `*CustomRule` used where a `Rule` is expected. -/
def CustomRule.toRule {σ : Type} (r : CustomRule σ) : Rule σ :=
  { Check := r.Check }

/-- Struct `AlwaysDenyRule`. -/
structure AlwaysDenyRule where
  message : String

/-- Function `AlwaysDeny(message)`. -/
def AlwaysDeny (message : String) : AlwaysDenyRule :=
  { message := message }

/-- Method `(r *AlwaysDenyRule) Check(ctx)`. -/
def AlwaysDenyRule.Check (r : AlwaysDenyRule) (_ctx : TransactionContext) : Option GoError :=
  if r.message = "" then some (NewAccessError "access denied")
  else some (NewAccessError r.message)

/-- A rule whose `Check` has no effect on the state, used where a `Rule` is expected. -/
def pureRule {σ : Type} (check : TransactionContext → Option GoError) : Rule σ :=
  { Check := fun ctx s => (check ctx, s) }

/-- An `*AlwaysDenyRule` used where a `Rule` is expected. -/
def AlwaysDenyRule.toRule {σ : Type} (r : AlwaysDenyRule) : Rule σ :=
  pureRule r.Check

/-! ## orgs.go -/

/-- Struct `MSPIDRule`. -/
structure MSPIDRule where
  mspid : String

/-- Function `RequireMSPID(mspid)`. -/
def RequireMSPID (mspid : String) : MSPIDRule :=
  { mspid := mspid }

/-- Method `(r *MSPIDRule) Check(ctx)`; the read error is wrapped by
`"failed to get MSPID: %w"`, the denial is `"required MSPID '%s', got '%s'"`. -/
def MSPIDRule.Check (r : MSPIDRule) (ctx : TransactionContext) : Option GoError :=
  match ctx.GetClientIdentity.GetMSPID with
  | .error err => some (Errorf_w "failed to get MSPID: " err)
  | .ok mspid =>
    if mspid ≠ r.mspid then
      some (NewAccessError ("required MSPID '" ++ r.mspid ++ "', got '" ++ mspid ++ "'"))
    else none

/-- Struct `AnyMSPIDRule`. -/
structure AnyMSPIDRule where
  mspids : List String

/-- Function `RequireAnyMSPID(mspids...)`. -/
def RequireAnyMSPID (mspids : List String) : AnyMSPIDRule :=
  { mspids := mspids }

/-- Method `(r *AnyMSPIDRule) Check(ctx)`; the denial is
`"required one of MSPIDs %v, got '%s'"`. -/
def AnyMSPIDRule.Check (r : AnyMSPIDRule) (ctx : TransactionContext) : Option GoError :=
  match ctx.GetClientIdentity.GetMSPID with
  | .error err => some (Errorf_w "failed to get MSPID: " err)
  | .ok mspid =>
    if slices.Contains r.mspids mspid then none
    else
      some (NewAccessError
        ("required one of MSPIDs " ++ fmtStrings r.mspids ++ ", got '" ++ mspid ++ "'"))

/-- Struct `OURule`. -/
structure OURule where
  ou : String

/-- Function `RequireOU(ou)`. -/
def RequireOU (ou : String) : OURule :=
  { ou := ou }

/-- What a call of `Check` on an OU rule does: it returns an error value (nil included),
or it panics, which is how Go ends a field access through a nil pointer. -/
inductive CheckResult where
  | returned (err : Option GoError)
  | panicked
  deriving DecidableEq

/-- Method `(r *OURule) Check(ctx)`: the MSPID is read first, then the certificate;
the read errors are wrapped by `"failed to get MSPID: %w"` and
`"failed to get X509 certificate: %w"`, the denial is `"required OU '%s', MSP: %s"`.
There is no nil test on `cert` before `cert.Subject.OrganizationalUnit`: on the result
`(nil, nil)` of the certificate read the call panics. -/
def OURule.Check (r : OURule) (ctx : TransactionContext) : CheckResult :=
  let identity := ctx.GetClientIdentity
  match identity.GetMSPID with
  | .error err => .returned (some (Errorf_w "failed to get MSPID: " err))
  | .ok mspid =>
    match identity.GetX509Certificate with
    | .error err => .returned (some (Errorf_w "failed to get X509 certificate: " err))
    | .ok none => .panicked
    | .ok (some cert) =>
      let found := slices.Contains cert.Subject.OrganizationalUnit r.ou
      if !found then
        .returned (some (NewAccessError ("required OU '" ++ r.ou ++ "', MSP: " ++ mspid)))
      else .returned none

/-- Struct `AnyOURule`. -/
structure AnyOURule where
  ous : List String

/-- Function `RequireAnyOU(ous...)`. -/
def RequireAnyOU (ous : List String) : AnyOURule :=
  { ous := ous }

/-- Method `(r *AnyOURule) Check(ctx)`: the loop over the certificate's units returns
nil at the first one contained in `r.ous`; the denial is
`"required one of OUs %v, MSP: %s"`.  There is no nil test on `cert` before the loop
ranges over `cert.Subject.OrganizationalUnit`: on the result `(nil, nil)` of the
certificate read the call panics. -/
def AnyOURule.Check (r : AnyOURule) (ctx : TransactionContext) : CheckResult :=
  let identity := ctx.GetClientIdentity
  match identity.GetMSPID with
  | .error err => .returned (some (Errorf_w "failed to get MSPID: " err))
  | .ok mspid =>
    match identity.GetX509Certificate with
    | .error err => .returned (some (Errorf_w "failed to get X509 certificate: " err))
    | .ok none => .panicked
    | .ok (some cert) =>
      if cert.Subject.OrganizationalUnit.any (fun certOU => slices.Contains r.ous certOU) then
        .returned none
      else
        .returned (some (NewAccessError
          ("required one of OUs " ++ fmtStrings r.ous ++ ", MSP: " ++ mspid)))

/-! ## roles.go -/

/-- Struct `RoleRule`. -/
structure RoleRule where
  role : String

/-- Function `RequireRole(role)`. -/
def RequireRole (role : String) : RoleRule :=
  { role := role }

/-- Method `(r *RoleRule) Check(ctx)`: the read error is wrapped by
`"failed to get role attribute: %w"`, an absent attribute gives the plain error
`"role attribute not found in identity"`, a mismatch the denial
`"required role '%s', got '%s'"`. -/
def RoleRule.Check (r : RoleRule) (ctx : TransactionContext) : Option GoError :=
  let identity := ctx.GetClientIdentity
  match identity.GetAttributeValue "role" with
  | .error err => some (Errorf_w "failed to get role attribute: " err)
  | .ok (role, found) =>
    if !found then some (GoError.errorString "role attribute not found in identity")
    else if role ≠ r.role then
      some (NewAccessError ("required role '" ++ r.role ++ "', got '" ++ role ++ "'"))
    else none

/-- Struct `AnyRoleRule`. -/
structure AnyRoleRule where
  roles : List String

/-- Function `RequireAnyRole(roles...)`. -/
def RequireAnyRole (roles : List String) : AnyRoleRule :=
  { roles := roles }

/-- Method `(r *AnyRoleRule) Check(ctx)`; the denial is
`"required one of roles %v, got '%s'"`. -/
def AnyRoleRule.Check (r : AnyRoleRule) (ctx : TransactionContext) : Option GoError :=
  let identity := ctx.GetClientIdentity
  match identity.GetAttributeValue "role" with
  | .error err => some (Errorf_w "failed to get role attribute: " err)
  | .ok (role, found) =>
    if !found then some (GoError.errorString "role attribute not found in identity")
    else if slices.Contains r.roles role then none
    else
      some (NewAccessError
        ("required one of roles " ++ fmtStrings r.roles ++ ", got '" ++ role ++ "'"))

/-! ## utils.go -/

/-- Function `HasAttribute(ctx, attrName)`. -/
def HasAttribute (ctx : TransactionContext) (attrName : String) : Except GoError Bool :=
  let identity := ctx.GetClientIdentity
  match identity.GetAttributeValue attrName with
  | .error err => .error (Errorf_w "failed to check attribute: " err)
  | .ok (_, found) => .ok found

/-- Struct `AttributeRule`; an empty `value` means that only presence is checked. -/
structure AttributeRule where
  name : String
  value : String

/-- Function `RequireAttribute(name, value)`. -/
def RequireAttribute (name value : String) : AttributeRule :=
  { name := name, value := value }

/-- Method `(r *AttributeRule) Check(ctx)`: the read error is wrapped by
`"failed to get attribute '%s': %w"`, the denials are `"attribute '%s' not found"` and
`"attribute '%s' has value '%s', expected '%s'"`. -/
def AttributeRule.Check (r : AttributeRule) (ctx : TransactionContext) : Option GoError :=
  let identity := ctx.GetClientIdentity
  match identity.GetAttributeValue r.name with
  | .error err => some (Errorf_w ("failed to get attribute '" ++ r.name ++ "': ") err)
  | .ok (attrValue, found) =>
    if !found then some (NewAccessError ("attribute '" ++ r.name ++ "' not found"))
    else if r.value ≠ "" ∧ attrValue ≠ r.value then
      some (NewAccessError
        ("attribute '" ++ r.name ++ "' has value '" ++ attrValue ++ "', expected '"
          ++ r.value ++ "'"))
    else none

/-- Struct `HasAttributeRule`. -/
structure HasAttributeRule where
  name : String

/-- Function `RequireHasAttribute(name)`. -/
def RequireHasAttribute (name : String) : HasAttributeRule :=
  { name := name }

/-- Method `(r *HasAttributeRule) Check(ctx)`: the read error is wrapped by
`"failed to check attribute '%s': %w"`, the denial is `"attribute '%s' not found"`. -/
def HasAttributeRule.Check (r : HasAttributeRule) (ctx : TransactionContext) :
    Option GoError :=
  let identity := ctx.GetClientIdentity
  match identity.GetAttributeValue r.name with
  | .error err => some (Errorf_w ("failed to check attribute '" ++ r.name ++ "': ") err)
  | .ok (_, found) =>
    if !found then some (NewAccessError ("attribute '" ++ r.name ++ "' not found"))
    else none

/-- Struct `IsHLFAdmintRule`. -/
structure IsHLFAdmintRule where

/-- Function `RequireHLFAdmin()`. -/
def RequireHLFAdmin : IsHLFAdmintRule :=
  {}

/-- Method `(r *IsHLFAdmintRule) Check(ctx)`. -/
def IsHLFAdmintRule.Check (_r : IsHLFAdmintRule) (ctx : TransactionContext) :
    Option GoError :=
  let identity := ctx.GetClientIdentity
  match identity.AssertAttributeValue "hf.Type" "admin" with
  | some err => some (WrapAccessError "admin type required in hf.Type attribute" (some err))
  | none => none

/-- Struct `IsHLFClientRule`. -/
structure IsHLFClientRule where

/-- Function `RequireHLFClient()`. -/
def RequireHLFClient : IsHLFClientRule :=
  {}

/-- Method `(r *IsHLFClientRule) Check(ctx)`. -/
def IsHLFClientRule.Check (_r : IsHLFClientRule) (ctx : TransactionContext) :
    Option GoError :=
  let identity := ctx.GetClientIdentity
  match identity.AssertAttributeValue "hf.Type" "client" with
  | some err => some (WrapAccessError "client type required in hf.Type attribute" (some err))
  | none => none

/-! ## Reference semantics used to state the theorems

These definitions are not part of the package: they say, independently of the loops
above, what calling a list of rules one after the other yields, and they equip rules
with a call log in the way a test wraps each child in a counting `Custom` rule. -/

/-- The errors returned by calling `Check` on each rule of the list once, in list
order, each call starting in the state the previous call left. -/
def outcomes {σ : Type} (ctx : TransactionContext) : List (Rule σ) → σ → List (Option GoError)
  | [], _ => []
  | r :: rs, s => (r.Check ctx s).1 :: outcomes ctx rs (r.Check ctx s).2

/-- The state left by calling `Check` on each rule of the list once, in list order. -/
def runAll {σ : Type} (ctx : TransactionContext) : List (Rule σ) → σ → σ
  | [], s => s
  | r :: rs, s => runAll ctx rs (r.Check ctx s).2

/-- The rule `r` with a call log: each call of `Check` appends the tag `i` to the log
and otherwise behaves as `r` does. -/
def logged {σ : Type} (i : Nat) (r : Rule σ) : Rule (σ × List Nat) :=
  { Check := fun ctx st => ((r.Check ctx st.1).1, ((r.Check ctx st.1).2, st.2 ++ [i])) }

/-- Tags the rules of a list with their positions, counted from `i`. -/
def instrumentFrom {σ : Type} (i : Nat) : List (Rule σ) → List (Rule (σ × List Nat))
  | [] => []
  | r :: rs => logged i r :: instrumentFrom (i + 1) rs

/-- Tags the rules of a list with their 1-based positions. -/
def instrument {σ : Type} (rs : List (Rule σ)) : List (Rule (σ × List Nat)) :=
  instrumentFrom 1 rs

/-- The entries of an aggregated reason: one entry per failing outcome, carrying the
1-based position of the outcome in the list (positions counted from `i + 1`). -/
def failureEntries : Nat → List (Option GoError) → List String
  | _, [] => []
  | i, none :: os => failureEntries (i + 1) os
  | i, some err :: os => ruleEntry (i + 1) err :: failureEntries (i + 1) os

/-! ## Rule trees

Rules used where a `Rule` is expected, and the trees the combinators build. -/

/-- An `*MSPIDRule` used where a `Rule` is expected. -/
def MSPIDRule.toRule {σ : Type} (r : MSPIDRule) : Rule σ :=
  pureRule r.Check

/-- An `*AnyMSPIDRule` used where a `Rule` is expected. -/
def AnyMSPIDRule.toRule {σ : Type} (r : AnyMSPIDRule) : Rule σ :=
  pureRule r.Check

/-- A `*RoleRule` used where a `Rule` is expected. -/
def RoleRule.toRule {σ : Type} (r : RoleRule) : Rule σ :=
  pureRule r.Check

/-- An `*AnyRoleRule` used where a `Rule` is expected. -/
def AnyRoleRule.toRule {σ : Type} (r : AnyRoleRule) : Rule σ :=
  pureRule r.Check

/-- An `*AttributeRule` used where a `Rule` is expected. -/
def AttributeRule.toRule {σ : Type} (r : AttributeRule) : Rule σ :=
  pureRule r.Check

/-- A `*HasAttributeRule` used where a `Rule` is expected. -/
def HasAttributeRule.toRule {σ : Type} (r : HasAttributeRule) : Rule σ :=
  pureRule r.Check

/-- An `*IsHLFAdmintRule` used where a `Rule` is expected. -/
def IsHLFAdmintRule.toRule {σ : Type} (r : IsHLFAdmintRule) : Rule σ :=
  pureRule r.Check

/-- An `*IsHLFClientRule` used where a `Rule` is expected. -/
def IsHLFClientRule.toRule {σ : Type} (r : IsHLFClientRule) : Rule σ :=
  pureRule r.Check

/-- A finite rule tree: leaves are arbitrary rules, inner nodes are the three
combinators. -/
inductive RuleTree (σ : Type) where
  | leaf (r : Rule σ)
  | and (children : List (RuleTree σ))
  | or (children : List (RuleTree σ))
  | not (child : RuleTree σ)

mutual
/-- The rule a tree stands for: the value built by the calls `And(...)`, `Or(...)`
and `Not(...)` at its nodes. -/
def RuleTree.toRule {σ : Type} : RuleTree σ → Rule σ
  | .leaf r => r
  | .and children => (And (RuleTree.toRules children)).toRule
  | .or children => (Or (RuleTree.toRules children)).toRule
  | .not child => (Not child.toRule).toRule
/-- The rules a list of trees stands for. -/
def RuleTree.toRules {σ : Type} : List (RuleTree σ) → List (Rule σ)
  | [] => []
  | t :: ts => t.toRule :: RuleTree.toRules ts
end

mutual
/-- Boolean evaluation of a tree: a leaf is true iff its `Check`, called in the state
`s0`, returns nil; `and` is the conjunction of its children, `or` their disjunction,
`not` the negation. -/
def RuleTree.eval {σ : Type} (ctx : TransactionContext) (s0 : σ) : RuleTree σ → Bool
  | .leaf r => (r.Check ctx s0).1.isNone
  | .and children => RuleTree.evalAll ctx s0 children
  | .or children => RuleTree.evalAny ctx s0 children
  | .not child => !(child.eval ctx s0)
/-- Conjunction of the evaluations of a list of trees; true for the empty list. -/
def RuleTree.evalAll {σ : Type} (ctx : TransactionContext) (s0 : σ) :
    List (RuleTree σ) → Bool
  | [] => true
  | t :: ts => t.eval ctx s0 && RuleTree.evalAll ctx s0 ts
/-- Disjunction of the evaluations of a list of trees; false for the empty list. -/
def RuleTree.evalAny {σ : Type} (ctx : TransactionContext) (s0 : σ) :
    List (RuleTree σ) → Bool
  | [] => false
  | t :: ts => t.eval ctx s0 || RuleTree.evalAny ctx s0 ts
end

mutual
/-- Every leaf of the tree satisfies `P`. -/
def RuleTree.leavesAll {σ : Type} (P : Rule σ → Prop) : RuleTree σ → Prop
  | .leaf r => P r
  | .and children => RuleTree.leavesAllList P children
  | .or children => RuleTree.leavesAllList P children
  | .not child => child.leavesAll P
/-- Every leaf of every tree of the list satisfies `P`. -/
def RuleTree.leavesAllList {σ : Type} (P : Rule σ → Prop) : List (RuleTree σ) → Prop
  | [] => True
  | t :: ts => t.leavesAll P ∧ RuleTree.leavesAllList P ts
end

/-- The outcome of `r` on `ctx` is deterministic: whether `Check` returns nil does not
depend on the state in which it is called. -/
def Deterministic {σ : Type} (ctx : TransactionContext) (r : Rule σ) : Prop :=
  ∀ s1 s2, (r.Check ctx s1).1 = none ↔ (r.Check ctx s2).1 = none

/-- The errors reachable from an error by repeated `Unwrap`, the error itself first. -/
def GoError.chain : GoError → List GoError
  | .accessError reason (some cause) => .accessError reason (some cause) :: cause.chain
  | .accessError reason none => [.accessError reason none]
  | .wrapError msg err => .wrapError msg err :: err.chain
  | .errorString s => [.errorString s]

/-- The dynamic type of the error is `*AccessError`. -/
def GoError.isAccessError : GoError → Bool
  | .accessError _ _ => true
  | _ => false

/-- Field `Reason` of an `*AccessError`; other errors have no such field. -/
def GoError.Reason : GoError → Option String
  | .accessError reason _ => some reason
  | _ => none

/-! ## Rules that may panic

The interface `Rule` admits implementations whose `Check` panics instead of returning;
the OU rules are such implementations.  The package never recovers from a panic, so a
panic in a child ends the call of the combinator or controller around it.  `Rule σ` above
is the type of the rules whose `Check` always returns; `PRule σ` is the interface with
the panic kept, and the combinators and the controller are embedded once more on it,
line by line as above, with the panic handed on. -/

/-- Interface `Rule`, for an implementation whose `Check` may panic: `none` is a call that
panics and so never returns to its caller. -/
structure PRule (σ : Type) where
  Check : TransactionContext → σ → Option (Option GoError × σ)

/-- A rule whose `Check` always returns, as a rule that may panic. -/
def Rule.toPRule {σ : Type} (r : Rule σ) : PRule σ :=
  { Check := fun ctx s => some (r.Check ctx s) }

/-- An `*OURule` used where a `Rule` is expected. -/
def OURule.toPRule {σ : Type} (r : OURule) : PRule σ :=
  { Check := fun ctx s =>
      match r.Check ctx with
      | .returned err => some (err, s)
      | .panicked => none }

/-- An `*AnyOURule` used where a `Rule` is expected. -/
def AnyOURule.toPRule {σ : Type} (r : AnyOURule) : PRule σ :=
  { Check := fun ctx s =>
      match r.Check ctx with
      | .returned err => some (err, s)
      | .panicked => none }

/-- Struct `AndRule`, over rules that may panic. -/
structure PAndRule (σ : Type) where
  rules : List (PRule σ)

/-- Function `And(rules...)`, over rules that may panic. -/
def PAnd {σ : Type} (rules : List (PRule σ)) : PAndRule σ :=
  { rules := rules }

/-- The loop of `AndRule.Check` as in `AndRule.loop`; a child that panics ends it. -/
def PAndRule.loop {σ : Type} (ctx : TransactionContext) :
    List (PRule σ) → Nat → List String → σ → Option (List String × σ)
  | [], _, errors, s => some (errors, s)
  | rule :: rest, i, errors, s =>
    match rule.Check ctx s with
    | none => none
    | some (some err, s1) =>
      PAndRule.loop ctx rest (i + 1) (errors ++ [ruleEntry (i + 1) err]) s1
    | some (none, s1) => PAndRule.loop ctx rest (i + 1) errors s1

/-- Method `(r *AndRule) Check(ctx)`, over rules that may panic. -/
def PAndRule.Check {σ : Type} (r : PAndRule σ) (ctx : TransactionContext) (s : σ) :
    Option (Option GoError × σ) :=
  match PAndRule.loop ctx r.rules 0 [] s with
  | none => none
  | some (errors, s1) =>
    if errors.length > 0 then
      some (some (NewAccessError ("AND rule failed: " ++ "; ".intercalate errors)), s1)
    else some (none, s1)

/-- An `*AndRule` used where a `Rule` is expected. -/
def PAndRule.toPRule {σ : Type} (r : PAndRule σ) : PRule σ :=
  { Check := r.Check }

/-- Struct `OrRule`, over rules that may panic. -/
structure POrRule (σ : Type) where
  rules : List (PRule σ)

/-- Function `Or(rules...)`, over rules that may panic. -/
def POr {σ : Type} (rules : List (PRule σ)) : POrRule σ :=
  { rules := rules }

/-- The loop of `OrRule.Check` as in `OrRule.loop`; a child that panics ends it. -/
def POrRule.loop {σ : Type} (ctx : TransactionContext) :
    List (PRule σ) → Nat → List String → σ → Option (Option (List String) × σ)
  | [], _, errors, s => some (some errors, s)
  | rule :: rest, i, errors, s =>
    match rule.Check ctx s with
    | none => none
    | some (none, s1) => some (none, s1)
    | some (some err, s1) =>
      POrRule.loop ctx rest (i + 1) (errors ++ [ruleEntry (i + 1) err]) s1

/-- Method `(r *OrRule) Check(ctx)`, over rules that may panic. -/
def POrRule.Check {σ : Type} (r : POrRule σ) (ctx : TransactionContext) (s : σ) :
    Option (Option GoError × σ) :=
  if r.rules.length = 0 then
    some (some (NewAccessError "OR rule: no rules defined"), s)
  else
    match POrRule.loop ctx r.rules 0 [] s with
    | none => none
    | some (none, s1) => some (none, s1)
    | some (some errors, s1) =>
      some (some (NewAccessError
        ("OR rule failed: none of the rules passed: " ++ "; ".intercalate errors)), s1)

/-- An `*OrRule` used where a `Rule` is expected. -/
def POrRule.toPRule {σ : Type} (r : POrRule σ) : PRule σ :=
  { Check := r.Check }

/-- Struct `NotRule`, over a rule that may panic. -/
structure PNotRule (σ : Type) where
  rule : PRule σ

/-- Function `Not(rule)`, over a rule that may panic. -/
def PNot {σ : Type} (rule : PRule σ) : PNotRule σ :=
  { rule := rule }

/-- Method `(r *NotRule) Check(ctx)`, over a rule that may panic. -/
def PNotRule.Check {σ : Type} (r : PNotRule σ) (ctx : TransactionContext) (s : σ) :
    Option (Option GoError × σ) :=
  match r.rule.Check ctx s with
  | none => none
  | some (none, s1) => some (some (NewAccessError "NOT rule: rule should not pass"), s1)
  | some (some _, s1) => some (none, s1)

/-- A `*NotRule` used where a `Rule` is expected. -/
def PNotRule.toPRule {σ : Type} (r : PNotRule σ) : PRule σ :=
  { Check := r.Check }

/-- Struct `controller`, over rules that may panic. -/
structure Pcontroller (σ : Type) where
  rules : List (PRule σ)

/-- Function `New(rules...)`, over rules that may panic. -/
def PNew {σ : Type} (rules : List (PRule σ)) : Pcontroller σ :=
  { rules := rules }

/-- The loop of `controller.Check` as in `controller.loop`; a rule that panics ends it. -/
def Pcontroller.loop {σ : Type} (ctx : TransactionContext) :
    List (PRule σ) → σ → Option (Option GoError × σ)
  | [], s => some (none, s)
  | rule :: rest, s =>
    match rule.Check ctx s with
    | none => none
    | some (some err, s1) => some (some err, s1)
    | some (none, s1) => Pcontroller.loop ctx rest s1

/-- Method `(c *controller) Check(ctx)`, over rules that may panic. -/
def Pcontroller.Check {σ : Type} (c : Pcontroller σ) (ctx : TransactionContext) (s : σ) :
    Option (Option GoError × σ) :=
  if c.rules.length = 0 then some (none, s)
  else Pcontroller.loop ctx c.rules s

/-- Function `CheckAccess(ctx, rules...)`, over rules that may panic. -/
def PCheckAccess {σ : Type} (ctx : TransactionContext) (rules : List (PRule σ)) (s : σ) :
    Option (Option GoError × σ) :=
  (PNew rules).Check ctx s

/-- The rules of the package that are not combinators and not `Custom`: the identity
predicates and `AlwaysDeny`. -/
inductive BuiltinLeaf {σ : Type} : PRule σ → Prop where
  | mspid (x : String) : BuiltinLeaf (RequireMSPID x).toRule.toPRule
  | anyMSPID (xs : List String) : BuiltinLeaf (RequireAnyMSPID xs).toRule.toPRule
  | ou (u : String) : BuiltinLeaf (RequireOU u).toPRule
  | anyOU (us : List String) : BuiltinLeaf (RequireAnyOU us).toPRule
  | role (x : String) : BuiltinLeaf (RequireRole x).toRule.toPRule
  | anyRole (xs : List String) : BuiltinLeaf (RequireAnyRole xs).toRule.toPRule
  | attributeValue (name value : String) :
      BuiltinLeaf (RequireAttribute name value).toRule.toPRule
  | hasAttribute (name : String) : BuiltinLeaf (RequireHasAttribute name).toRule.toPRule
  | hlfAdmin : BuiltinLeaf RequireHLFAdmin.toRule.toPRule
  | hlfClient : BuiltinLeaf RequireHLFClient.toRule.toPRule
  | alwaysDeny (message : String) : BuiltinLeaf (AlwaysDeny message).toRule.toPRule

/-- A finite rule tree over rules that may panic: leaves are arbitrary such rules, inner
nodes are the three combinators. -/
inductive PRuleTree (σ : Type) where
  | leaf (r : PRule σ)
  | and (children : List (PRuleTree σ))
  | or (children : List (PRuleTree σ))
  | not (child : PRuleTree σ)

mutual
/-- The rule a tree stands for: the value built by the calls `And(...)`, `Or(...)`
and `Not(...)` at its nodes. -/
def PRuleTree.toPRule {σ : Type} : PRuleTree σ → PRule σ
  | .leaf r => r
  | .and children => (PAnd (PRuleTree.toPRules children)).toPRule
  | .or children => (POr (PRuleTree.toPRules children)).toPRule
  | .not child => (PNot child.toPRule).toPRule
/-- The rules a list of trees stands for. -/
def PRuleTree.toPRules {σ : Type} : List (PRuleTree σ) → List (PRule σ)
  | [] => []
  | t :: ts => t.toPRule :: PRuleTree.toPRules ts
end

mutual
/-- Every leaf of the tree satisfies `P`. -/
def PRuleTree.leavesAll {σ : Type} (P : PRule σ → Prop) : PRuleTree σ → Prop
  | .leaf r => P r
  | .and children => PRuleTree.leavesAllList P children
  | .or children => PRuleTree.leavesAllList P children
  | .not child => child.leavesAll P
/-- Every leaf of every tree of the list satisfies `P`. -/
def PRuleTree.leavesAllList {σ : Type} (P : PRule σ → Prop) : List (PRuleTree σ) → Prop
  | [] => True
  | t :: ts => t.leavesAll P ∧ PRuleTree.leavesAllList P ts
end

mutual
/-- A tree over rules that always return, as a tree over rules that may panic. -/
def RuleTree.toPRuleTree {σ : Type} : RuleTree σ → PRuleTree σ
  | .leaf r => .leaf r.toPRule
  | .and children => .and (RuleTree.toPRuleTrees children)
  | .or children => .or (RuleTree.toPRuleTrees children)
  | .not child => .not child.toPRuleTree
/-- A list of trees over rules that always return, as trees over rules that may panic. -/
def RuleTree.toPRuleTrees {σ : Type} : List (RuleTree σ) → List (PRuleTree σ)
  | [] => []
  | t :: ts => t.toPRuleTree :: RuleTree.toPRuleTrees ts
end

/-! ## Sample inputs

Concrete contexts and rules on which the theorems below are instantiated. -/

/-- An identity of organisation `Org1MSP`, unit `sales`, with the attribute
`role = admin` and no other attribute; every read succeeds. -/
def sampleIdentity : ClientIdentity :=
  { GetID := .ok "x509::CN=alice"
    GetMSPID := .ok "Org1MSP"
    GetAttributeValue := fun name => if name = "role" then .ok ("admin", true) else .ok ("", false)
    AssertAttributeValue := fun _ _ => some (GoError.errorString "attribute 'hf.Type' not found")
    GetX509Certificate := .ok (some { Subject := { OrganizationalUnit := ["sales"] } }) }

/-- The transaction context of `sampleIdentity`. -/
def sampleCtx : TransactionContext :=
  { GetClientIdentity := sampleIdentity }

/-- A context whose identity reads all fail with the error `e`. -/
def failingCtx (e : GoError) : TransactionContext :=
  { GetClientIdentity :=
      { GetID := .error e
        GetMSPID := .error e
        GetAttributeValue := fun _ => .error e
        AssertAttributeValue := fun _ _ => some e
        GetX509Certificate := .error e } }

/-- A context whose MSPID read succeeds and whose certificate read fails with `e`. -/
def failingCertCtx (e : GoError) : TransactionContext :=
  { GetClientIdentity :=
      { GetID := .ok "x509::CN=alice"
        GetMSPID := .ok "Org1MSP"
        GetAttributeValue := fun _ => .ok ("", false)
        AssertAttributeValue := fun _ _ => none
        GetX509Certificate := .error e } }

/-- An identity that is not an X.509 one: every read succeeds, the certificate read
with the result `(nil, nil)`. -/
def nilCertCtx : TransactionContext :=
  { GetClientIdentity :=
      { GetID := .ok "idemix::anonymous"
        GetMSPID := .ok "Org1MSP"
        GetAttributeValue := fun name =>
          if name = "role" then .ok ("admin", true) else .ok ("", false)
        AssertAttributeValue := fun _ _ => none
        GetX509Certificate := .ok none } }

/-- An infrastructure error: a plain error, no `*AccessError` in its chain. -/
def ledgerDown : GoError :=
  GoError.errorString "ledger unavailable"

/-- A rule that passes. -/
def passRule {σ : Type} : Rule σ :=
  pureRule (fun _ => none)

/-- A rule that fails with the infrastructure error `ledgerDown`. -/
def infraRule {σ : Type} : Rule σ :=
  pureRule (fun _ => some ledgerDown)

/-- A `Custom` rule that counts its calls in the state and passes from the third call on. -/
def thirdTimeLucky : Rule Nat :=
  (Custom "third time lucky" (fun _ n =>
    (if n < 2 then some (NewAccessError "not yet") else none, n + 1))).toRule

/-- An identity whose reads all succeed: organisation `mspid`, certificate units `ous`,
attributes `attrs` (name, value); `AssertAttributeValue` fails with a plain error unless
the attribute is present with the expected value. -/
def identityOf (mspid : String) (ous : List String) (attrs : List (String × String)) :
    ClientIdentity :=
  { GetID := .ok "x509::CN=bob"
    GetMSPID := .ok mspid
    GetAttributeValue := fun name =>
      match attrs.lookup name with
      | some v => .ok (v, true)
      | none => .ok ("", false)
    AssertAttributeValue := fun name v =>
      if attrs.lookup name = some v then none
      else some (GoError.errorString ("attribute '" ++ name ++ "' is not '" ++ v ++ "'"))
    GetX509Certificate := .ok (some { Subject := { OrganizationalUnit := ous } }) }

/-- The transaction context of `identityOf mspid ous attrs`. -/
def ctxOf (mspid : String) (ous : List String) (attrs : List (String × String)) :
    TransactionContext :=
  { GetClientIdentity := identityOf mspid ous attrs }

/-! ## Lemmas on the reference semantics -/

theorem failureEntries_eq_nil_iff (i : Nat) (os : List (Option GoError)) :
    failureEntries i os = [] ↔ ∀ o ∈ os, o = none := by
  induction os generalizing i with
  | nil => simp [failureEntries]
  | cons o os ih =>
    cases o with
    | none => simp [failureEntries, ih]
    | some e => simp [failureEntries]

theorem failureEntries_length (i : Nat) (os : List (Option GoError)) :
    (failureEntries i os).length = (os.filter (fun o => o.isSome)).length := by
  induction os generalizing i with
  | nil => simp [failureEntries]
  | cons o os ih =>
    cases o with
    | none => simp [failureEntries, ih]
    | some e => simp [failureEntries, ih]

theorem failureEntries_eq_filterMap (i : Nat) (os : List (Option GoError)) :
    failureEntries i os
      = (os.enumFrom (i + 1)).filterMap (fun p => p.2.map (fun e => ruleEntry p.1 e)) := by
  induction os generalizing i with
  | nil => simp [failureEntries]
  | cons o os ih =>
    cases o with
    | none => simp [failureEntries, List.enumFrom, ih]
    | some e => simp [failureEntries, List.enumFrom, ih]

theorem outcomes_length {σ : Type} (ctx : TransactionContext) (rs : List (Rule σ)) (s : σ) :
    (outcomes ctx rs s).length = rs.length := by
  induction rs generalizing s with
  | nil => simp [outcomes]
  | cons r rs ih => simp [outcomes, ih]

/-! ## Lemmas on the loops -/

theorem AndRule_loop_eq {σ : Type} (ctx : TransactionContext) (rs : List (Rule σ))
    (i : Nat) (errors : List String) (s : σ) :
    AndRule.loop ctx rs i errors s
      = (errors ++ failureEntries i (outcomes ctx rs s), runAll ctx rs s) := by
  induction rs generalizing i errors s with
  | nil => simp [AndRule.loop, outcomes, runAll, failureEntries]
  | cons r rs ih =>
    rcases h : r.Check ctx s with ⟨o, s1⟩
    cases o with
    | none => simp [AndRule.loop, outcomes, runAll, failureEntries, h, ih]
    | some e => simp [AndRule.loop, outcomes, runAll, failureEntries, h, ih]

theorem AndRule_Check_eq {σ : Type} (ctx : TransactionContext) (rs : List (Rule σ)) (s : σ) :
    (And rs).Check ctx s
      = (if (failureEntries 0 (outcomes ctx rs s)).length > 0 then
          some (NewAccessError
            ("AND rule failed: " ++ "; ".intercalate (failureEntries 0 (outcomes ctx rs s))))
         else none, runAll ctx rs s) := by
  simp only [AndRule.Check, And, AndRule_loop_eq, List.nil_append]
  split <;> rfl

theorem outcomes_map_pureRule {σ : Type} (ctx : TransactionContext)
    (checks : List (TransactionContext → Option GoError)) (s : σ) :
    outcomes ctx (checks.map pureRule) s = checks.map (fun c => c ctx) := by
  induction checks with
  | nil => simp [outcomes]
  | cons c cs ih => simp [outcomes, pureRule, ih]

theorem outcomes_instrumentFrom {σ : Type} (ctx : TransactionContext) (rs : List (Rule σ))
    (i : Nat) (s : σ) (log : List Nat) :
    outcomes ctx (instrumentFrom i rs) (s, log) = outcomes ctx rs s := by
  induction rs generalizing i s log with
  | nil => simp [outcomes, instrumentFrom]
  | cons r rs ih => simp [outcomes, instrumentFrom, logged, ih]

theorem runAll_instrumentFrom {σ : Type} (ctx : TransactionContext) (rs : List (Rule σ))
    (i : Nat) (s : σ) (log : List Nat) :
    runAll ctx (instrumentFrom i rs) (s, log)
      = (runAll ctx rs s, log ++ List.range' i rs.length) := by
  induction rs generalizing i s log with
  | nil => simp [runAll, instrumentFrom]
  | cons r rs ih => simp [runAll, instrumentFrom, logged, ih, List.range'_succ]

theorem instrumentFrom_take {σ : Type} (rs : List (Rule σ)) (i k : Nat) :
    (instrumentFrom i rs).take k = instrumentFrom i (rs.take k) := by
  induction rs generalizing i k with
  | nil => simp [instrumentFrom]
  | cons r rs ih =>
    cases k with
    | zero => simp [instrumentFrom]
    | succ k => simp [instrumentFrom, ih]

theorem instrumentFrom_length {σ : Type} (rs : List (Rule σ)) (i : Nat) :
    (instrumentFrom i rs).length = rs.length := by
  induction rs generalizing i with
  | nil => simp [instrumentFrom]
  | cons r rs ih => simp [instrumentFrom, ih]

theorem OrRule_loop_all_fail {σ : Type} (ctx : TransactionContext) (rs : List (Rule σ))
    (i : Nat) (errors : List String) (s : σ)
    (h : ∀ o ∈ outcomes ctx rs s, o ≠ none) :
    OrRule.loop ctx rs i errors s
      = (some (errors ++ failureEntries i (outcomes ctx rs s)), runAll ctx rs s) := by
  induction rs generalizing i errors s with
  | nil => simp [OrRule.loop, outcomes, runAll, failureEntries]
  | cons r rs ih =>
    rcases hr : r.Check ctx s with ⟨o, s1⟩
    simp only [outcomes, hr, List.mem_cons, forall_eq_or_imp] at h
    cases o with
    | none => exact absurd rfl h.1
    | some e =>
      simp [OrRule.loop, outcomes, runAll, failureEntries, hr, ih _ _ _ h.2]

theorem OrRule_loop_first_pass {σ : Type} (ctx : TransactionContext) (rs : List (Rule σ))
    (i : Nat) (errors : List String) (s : σ) (k : Nat)
    (hk : (outcomes ctx rs s)[k]? = some none)
    (hfirst : ∀ j, j < k → (outcomes ctx rs s)[j]? ≠ some none) :
    OrRule.loop ctx rs i errors s = (none, runAll ctx (rs.take (k + 1)) s) := by
  induction rs generalizing i errors s k with
  | nil => simp [outcomes] at hk
  | cons r rs ih =>
    rcases hr : r.Check ctx s with ⟨o, s1⟩
    cases k with
    | zero =>
      simp only [outcomes, hr, List.getElem?_cons_zero, Option.some.injEq] at hk
      subst hk
      simp [OrRule.loop, runAll, hr]
    | succ k =>
      have h0 := hfirst 0 (Nat.succ_pos k)
      simp only [outcomes, hr, List.getElem?_cons_zero, ne_eq, Option.some.injEq] at h0
      cases o with
      | none => exact absurd rfl h0
      | some e =>
        simp only [outcomes, hr, List.getElem?_cons_succ] at hk
        have hf : ∀ j, j < k → (outcomes ctx rs s1)[j]? ≠ some none := by
          intro j hj
          have := hfirst (j + 1) (Nat.succ_lt_succ hj)
          simpa [outcomes, hr] using this
        simp [OrRule.loop, runAll, hr, ih _ _ _ k hk hf]

theorem OrRule_loop_none_iff {σ : Type} (ctx : TransactionContext) (rs : List (Rule σ))
    (i : Nat) (errors : List String) (s : σ) :
    (OrRule.loop ctx rs i errors s).1 = none ↔ ∃ o ∈ outcomes ctx rs s, o = none := by
  induction rs generalizing i errors s with
  | nil => simp [OrRule.loop, outcomes]
  | cons r rs ih =>
    rcases hr : r.Check ctx s with ⟨o, s1⟩
    cases o with
    | none => simp [OrRule.loop, outcomes, hr]
    | some e => simp [OrRule.loop, outcomes, hr, ih]

theorem failureEntries_map_some (i : Nat) (es : List GoError) :
    failureEntries i (es.map some)
      = (es.enumFrom i).map (fun p => "rule " ++ toString (p.1 + 1) ++ ": " ++ p.2.Error) := by
  induction es generalizing i with
  | nil => simp [failureEntries]
  | cons e es ih => simp [failureEntries, List.enumFrom, ruleEntry, ih]

theorem controller_loop_all_pass {σ : Type} (ctx : TransactionContext) (rs : List (Rule σ))
    (s : σ) (h : ∀ o ∈ outcomes ctx rs s, o = none) :
    controller.loop ctx rs s = (none, runAll ctx rs s) := by
  induction rs generalizing s with
  | nil => simp [controller.loop, runAll]
  | cons r rs ih =>
    rcases hr : r.Check ctx s with ⟨o, s1⟩
    simp only [outcomes, hr, List.mem_cons, forall_eq_or_imp] at h
    cases o with
    | some e => exact absurd h.1 (by simp)
    | none => simp [controller.loop, runAll, hr, ih _ h.2]

theorem controller_loop_first_fail {σ : Type} (ctx : TransactionContext) (rs : List (Rule σ))
    (s : σ) (k : Nat) (e : GoError)
    (hk : (outcomes ctx rs s)[k]? = some (some e))
    (hfirst : ∀ j, j < k → (outcomes ctx rs s)[j]? = some none) :
    controller.loop ctx rs s = (some e, runAll ctx (rs.take (k + 1)) s) := by
  induction rs generalizing s k with
  | nil => simp [outcomes] at hk
  | cons r rs ih =>
    rcases hr : r.Check ctx s with ⟨o, s1⟩
    cases k with
    | zero =>
      simp only [outcomes, hr, List.getElem?_cons_zero, Option.some.injEq] at hk
      subst hk
      simp [controller.loop, runAll, hr]
    | succ k =>
      have h0 := hfirst 0 (Nat.succ_pos k)
      simp only [outcomes, hr, List.getElem?_cons_zero, Option.some.injEq] at h0
      subst h0
      simp only [outcomes, hr, List.getElem?_cons_succ] at hk
      have hf : ∀ j, j < k → (outcomes ctx rs s1)[j]? = some none := by
        intro j hj
        have := hfirst (j + 1) (Nat.succ_lt_succ hj)
        simpa [outcomes, hr] using this
      simp [controller.loop, runAll, hr, ih _ k hk hf]

theorem controller_Check_eq_loop {σ : Type} (ctx : TransactionContext) (rs : List (Rule σ))
    (s : σ) : (New rs).Check ctx s = controller.loop ctx rs s := by
  cases rs with
  | nil => simp [controller.Check, New, controller.loop]
  | cons r rs => simp [controller.Check, New]

/-! ## The combinators -/

/-- C1: for every list of child rules (the empty list included), every context and
every starting state, `And(rs...).Check(ctx)` returns nil if and only if every child's
`Check(ctx)` returns nil, the children being called in list order; for children whose
`Check` has no side effect this reads: if and only if each child's check returns nil on
`ctx`. -/
theorem AndRule_Check_nil_iff_all_nil {σ : Type} (rs : List (Rule σ))
    (checks : List (TransactionContext → Option GoError))
    (ctx : TransactionContext) (s : σ) :
    (((And rs).Check ctx s).1 = none ↔ ∀ o ∈ outcomes ctx rs s, o = none) ∧
    (((And (checks.map pureRule)).Check ctx s).1 = none ↔ ∀ c ∈ checks, c ctx = none) := by
  have key : ∀ qs : List (Rule σ),
      ((And qs).Check ctx s).1 = none ↔ ∀ o ∈ outcomes ctx qs s, o = none := by
    intro qs
    rw [AndRule_Check_eq]
    simp only [gt_iff_lt, List.length_pos, ne_eq]
    rw [← failureEntries_eq_nil_iff 0]
    by_cases h : failureEntries 0 (outcomes ctx qs s) = [] <;> simp [h]
  refine ⟨key rs, ?_⟩
  rw [key, outcomes_map_pureRule]
  simp

/-- C3: `Not(r).Check(ctx)` returns nil if and only if `r.Check(ctx)` returns a non-nil
error, whatever its kind; when `r.Check(ctx)` returns nil, `Not(r).Check(ctx)` returns the
`AccessError` with reason "NOT rule: rule should not pass" and no cause (`AsAccessError`
reports true on it); the value `Not(r)` returns is never the value its child returned;
the child is called once. -/
theorem NotRule_Check_inverts {σ : Type} (r : Rule σ) (ctx : TransactionContext) (s : σ) :
    (((Not r).Check ctx s).1 = none ↔ (r.Check ctx s).1 ≠ none) ∧
    ((r.Check ctx s).1 = none →
      ((Not r).Check ctx s).1
          = some (GoError.accessError "NOT rule: rule should not pass" none) ∧
      AsAccessError ((Not r).Check ctx s).1
          = (some (GoError.accessError "NOT rule: rule should not pass" none), true)) ∧
    ((Not r).Check ctx s).1 ≠ (r.Check ctx s).1 ∧
    ((Not r).Check ctx s).2 = (r.Check ctx s).2 := by
  rcases h : r.Check ctx s with ⟨o, s1⟩
  cases o with
  | none =>
    simp [NotRule.Check, Not, h, NewAccessError, AsAccessError, GoError.asAccessError]
  | some e =>
    simp [NotRule.Check, Not, h]

/-- Witness of C3: a passing child, and a child failing with an infrastructure error. -/
theorem NotRule_Check_inverts_witness :
    ((Not (passRule : Rule Unit)).Check sampleCtx ()).1
        = some (GoError.accessError "NOT rule: rule should not pass" none) ∧
    ((infraRule : Rule Unit).Check sampleCtx ()).1 = some ledgerDown ∧
    ((Not (infraRule : Rule Unit)).Check sampleCtx ()).1 = none :=
  ⟨((NotRule_Check_inverts (passRule : Rule Unit) sampleCtx ()).2.1 (by decide)).1,
   by decide,
   (NotRule_Check_inverts (infraRule : Rule Unit) sampleCtx ()).1.2 (by decide)⟩

/-- C4: if the first child whose `Check` returns nil is the one at 1-based position
`k + 1`, then `Or(rs...).Check(ctx)` returns nil, the state it leaves is the one left by
calling the children at positions `1..k+1` once each in order, and the call log of the
children is exactly `[1, ..., k+1]`: no child after that position is called. -/
theorem OrRule_Check_stops_at_first_pass {σ : Type} (rs : List (Rule σ))
    (ctx : TransactionContext) (s : σ) (k : Nat)
    (hk : (outcomes ctx rs s)[k]? = some none)
    (hfirst : ∀ j, j < k → (outcomes ctx rs s)[j]? ≠ some none) :
    ((Or rs).Check ctx s).1 = none ∧
    ((Or rs).Check ctx s).2 = runAll ctx (rs.take (k + 1)) s ∧
    ((Or (instrument rs)).Check ctx (s, [])).2.2 = List.range' 1 (k + 1) := by
  have hlen : k < rs.length := by
    have := (List.getElem?_eq_some.mp hk).1
    simpa [outcomes_length] using this
  have hne : rs.length ≠ 0 := by omega
  have h1 : (Or rs).Check ctx s = (none, runAll ctx (rs.take (k + 1)) s) := by
    simp only [OrRule.Check, Or, hne, if_false]
    rw [OrRule_loop_first_pass ctx rs 0 [] s k hk hfirst]
  have hk2 : (outcomes ctx (instrument rs) (s, ([] : List Nat)))[k]? = some none := by
    simpa [instrument, outcomes_instrumentFrom] using hk
  have hfirst2 : ∀ j, j < k →
      (outcomes ctx (instrument rs) (s, ([] : List Nat)))[j]? ≠ some none := by
    intro j hj
    simpa [instrument, outcomes_instrumentFrom] using hfirst j hj
  have hne2 : (instrument rs).length ≠ 0 := by
    simpa [instrument, instrumentFrom_length] using hne
  have h2 : (Or (instrument rs)).Check ctx (s, [])
      = (none, runAll ctx ((instrument rs).take (k + 1)) (s, [])) := by
    simp only [OrRule.Check, Or, hne2, if_false]
    rw [OrRule_loop_first_pass ctx (instrument rs) 0 [] (s, []) k hk2 hfirst2]
  refine ⟨by rw [h1], by rw [h1], ?_⟩
  rw [h2]
  simp only [instrument, instrumentFrom_take, runAll_instrumentFrom, List.nil_append,
    List.length_take]
  congr 1
  omega

/-- Witness of C4: four copies of a counting rule that passes from its third call on;
the third child is the first to pass, the state counts three calls and the log is
`[1, 2, 3]`. -/
theorem OrRule_Check_stops_at_first_pass_witness :
    (outcomes sampleCtx [thirdTimeLucky, thirdTimeLucky, thirdTimeLucky, thirdTimeLucky] 0)[2]?
        = some none ∧
    ((Or [thirdTimeLucky, thirdTimeLucky, thirdTimeLucky, thirdTimeLucky]).Check
        sampleCtx 0).1 = none ∧
    ((Or [thirdTimeLucky, thirdTimeLucky, thirdTimeLucky, thirdTimeLucky]).Check
        sampleCtx 0).2 = 3 ∧
    ((Or (instrument [thirdTimeLucky, thirdTimeLucky, thirdTimeLucky, thirdTimeLucky])).Check
        sampleCtx (0, [])).2.2 = [1, 2, 3] :=
  have h := OrRule_Check_stops_at_first_pass
    [thirdTimeLucky, thirdTimeLucky, thirdTimeLucky, thirdTimeLucky] sampleCtx 0 2
    (by decide) (by decide)
  ⟨by decide, h.1, h.2.1.trans (by decide), h.2.2.trans (by decide)⟩

/-- C5: `And(rs...).Check(ctx)` calls `Check` on every one of its `n` children exactly
once, in order `1..n`, whichever of them fail: the state it leaves is the one left by
calling all the children once each in order, and the call log of the children is exactly
`[1, ..., n]`. -/
theorem AndRule_Check_calls_every_child {σ : Type} (rs : List (Rule σ))
    (ctx : TransactionContext) (s : σ) :
    ((And rs).Check ctx s).2 = runAll ctx rs s ∧
    ((And (instrument rs)).Check ctx (s, [])).2.2 = List.range' 1 rs.length := by
  constructor
  · rw [AndRule_Check_eq]
  · rw [AndRule_Check_eq]
    simp [instrument, runAll_instrumentFrom]

/-- C8: with zero children `And().Check(ctx)` returns nil while `Or().Check(ctx)` returns
the `AccessError` with the fixed reason "OR rule: no rules defined" and no cause, for
every context and state alike: neither result depends on `ctx`, and the state is left
untouched. -/
theorem zero_children_And_passes_Or_denies {σ : Type} (ctx : TransactionContext) (s : σ) :
    (And ([] : List (Rule σ))).Check ctx s = (none, s) ∧
    (Or ([] : List (Rule σ))).Check ctx s
      = (some (GoError.accessError "OR rule: no rules defined" none), s) ∧
    AsAccessError ((Or ([] : List (Rule σ))).Check ctx s).1
      = (some (GoError.accessError "OR rule: no rules defined" none), true) := by
  refine ⟨?_, ?_, ?_⟩
  · simp [AndRule.Check, And, AndRule.loop]
  · simp [OrRule.Check, Or, NewAccessError]
  · simp [OrRule.Check, Or, NewAccessError, AsAccessError, GoError.asAccessError]

/-- C6: when at least one child fails, `And(rs...).Check(ctx)` returns an `AccessError`
with no cause whose reason is "AND rule failed: " followed by one entry
"rule i: " ++ e.Error() for each failing child, `i` its 1-based position and `e` its
error, the entries joined by "; " in position order; passing children contribute
nothing, so there are as many entries as failing children. -/
theorem AndRule_Check_lists_failing_children {σ : Type} (rs : List (Rule σ))
    (ctx : TransactionContext) (s : σ)
    (h : ∃ o ∈ outcomes ctx rs s, o ≠ none) :
    ((And rs).Check ctx s).1
      = some (GoError.accessError
          ("AND rule failed: " ++ "; ".intercalate
            (((outcomes ctx rs s).enumFrom 1).filterMap
              (fun p => p.2.map (fun e => "rule " ++ toString p.1 ++ ": " ++ e.Error))))
          none) ∧
    (((outcomes ctx rs s).enumFrom 1).filterMap
        (fun p => p.2.map (fun e => "rule " ++ toString p.1 ++ ": " ++ e.Error))).length
      = ((outcomes ctx rs s).filter (fun o => o.isSome)).length := by
  have hfe := failureEntries_eq_filterMap 0 (outcomes ctx rs s)
  simp only [Nat.zero_add, ruleEntry] at hfe
  rw [← hfe]
  refine ⟨?_, failureEntries_length 0 _⟩
  rw [AndRule_Check_eq]
  have hne : failureEntries 0 (outcomes ctx rs s) ≠ [] := by
    intro hnil
    obtain ⟨o, ho, hon⟩ := h
    exact hon ((failureEntries_eq_nil_iff 0 _).mp hnil o ho)
  simp [List.length_pos, hne, NewAccessError]

/-- Witness of C6: a passing child, then one failing with an infrastructure error, then
a denial; the reason lists positions 2 and 3 only. -/
theorem AndRule_Check_lists_failing_children_witness :
    (∃ o ∈ outcomes sampleCtx
        [(passRule : Rule Unit), infraRule, (AlwaysDeny "closed").toRule] (), o ≠ none) ∧
    ((And [(passRule : Rule Unit), infraRule, (AlwaysDeny "closed").toRule]).Check
        sampleCtx ()).1
      = some (GoError.accessError
          "AND rule failed: rule 2: ledger unavailable; rule 3: access error: closed" none) :=
  ⟨by decide,
   (AndRule_Check_lists_failing_children
      [(passRule : Rule Unit), infraRule, (AlwaysDeny "closed").toRule] sampleCtx ()
      (by decide)).1.trans (by decide)⟩

/-- C7: for a non-empty list of `n` children, `Or(rs...).Check(ctx)` fails if and only
if every child fails, and then it returns an `AccessError` with no cause whose reason is
"OR rule failed: none of the rules passed: " followed by the `n` entries
"rule i: " ++ e_i.Error() for `i = 1..n`, joined by "; " in order. -/
theorem OrRule_Check_fails_iff_all_fail {σ : Type} (rs : List (Rule σ))
    (ctx : TransactionContext) (s : σ) (hne : rs ≠ []) :
    (((Or rs).Check ctx s).1 ≠ none ↔ ∀ o ∈ outcomes ctx rs s, o ≠ none) ∧
    (∀ es : List GoError, outcomes ctx rs s = es.map some →
      es.length = rs.length ∧
      ((Or rs).Check ctx s).1
        = some (GoError.accessError
            ("OR rule failed: none of the rules passed: " ++ "; ".intercalate
              (es.enum.map (fun p => "rule " ++ toString (p.1 + 1) ++ ": " ++ p.2.Error)))
            none)) := by
  have hlen : rs.length ≠ 0 := by
    intro h0
    exact hne (List.length_eq_zero.mp h0)
  constructor
  · have hiff := OrRule_loop_none_iff ctx rs 0 [] s
    rcases hl : OrRule.loop ctx rs 0 [] s with ⟨o, s1⟩
    rw [hl] at hiff
    cases o with
    | none =>
      have hex := hiff.mp rfl
      simp only [OrRule.Check, Or, hlen, if_false, hl]
      constructor
      · intro hc
        exact absurd rfl hc
      · intro hall
        obtain ⟨o, ho, hon⟩ := hex
        exact absurd hon (hall o ho)
    | some errs =>
      simp only [OrRule.Check, Or, hlen, if_false, hl]
      constructor
      · intro _ o ho hon
        have := hiff.mpr ⟨o, ho, hon⟩
        simp at this
      · intro _
        simp
  · intro es hes
    constructor
    · have := outcomes_length ctx rs s
      rw [hes] at this
      simpa using this
    · have hall : ∀ o ∈ outcomes ctx rs s, o ≠ none := by
        rw [hes]
        intro o ho
        simp only [List.mem_map] at ho
        obtain ⟨e, _, rfl⟩ := ho
        simp
      simp only [OrRule.Check, Or, hlen, if_false]
      rw [OrRule_loop_all_fail ctx rs 0 [] s hall, hes, failureEntries_map_some]
      simp [NewAccessError, List.enum]

/-- Witness of C7: two failing children, an infrastructure error and a denial. -/
theorem OrRule_Check_fails_iff_all_fail_witness :
    [(infraRule : Rule Unit), (AlwaysDeny "").toRule] ≠ [] ∧
    ((Or [(infraRule : Rule Unit), (AlwaysDeny "").toRule]).Check sampleCtx ()).1
      = some (GoError.accessError
          ("OR rule failed: none of the rules passed: " ++
            "rule 1: ledger unavailable; rule 2: access error: access denied") none) :=
  ⟨by simp,
   (((OrRule_Check_fails_iff_all_fail
      [(infraRule : Rule Unit), (AlwaysDeny "").toRule] sampleCtx () (by simp)).2
      [ledgerDown, NewAccessError "access denied"] (by decide)).2).trans (by decide)⟩

/-- C2, as the code has it: `And` and `Or` never hand a child's error on. Whenever
either combinator fails, the error it returns is an `AccessError` with no cause, and
`AsAccessError` reports true on it, also when the failing children returned
infrastructure errors; a child's error survives only as text in the reason. For a single
child `r` failing with an error `e` of any kind, `And(r).Check(ctx)` returns the
`AccessError` with reason "AND rule failed: rule 1: " ++ e.Error() and `Or(r).Check(ctx)`
the one with reason "OR rule failed: none of the rules passed: rule 1: " ++ e.Error(). -/
theorem combinators_turn_child_errors_into_denials {σ : Type} (rs : List (Rule σ))
    (r : Rule σ) (ctx : TransactionContext) (s : σ) :
    (∀ err, ((And rs).Check ctx s).1 = some err →
      (∃ reason, err = GoError.accessError reason none) ∧
      AsAccessError (some err) = (some err, true)) ∧
    (∀ err, ((Or rs).Check ctx s).1 = some err →
      (∃ reason, err = GoError.accessError reason none) ∧
      AsAccessError (some err) = (some err, true)) ∧
    (∀ e, (r.Check ctx s).1 = some e →
      ((And [r]).Check ctx s).1
        = some (GoError.accessError ("AND rule failed: rule 1: " ++ e.Error) none) ∧
      ((Or [r]).Check ctx s).1
        = some (GoError.accessError
            ("OR rule failed: none of the rules passed: rule 1: " ++ e.Error) none)) := by
  refine ⟨?_, ?_, ?_⟩
  · intro err herr
    rw [AndRule_Check_eq] at herr
    simp only at herr
    split at herr
    · simp only [Option.some.injEq] at herr
      subst herr
      exact ⟨⟨_, rfl⟩, rfl⟩
    · exact absurd herr (by simp)
  · intro err herr
    unfold OrRule.Check at herr
    split at herr
    · simp only [Option.some.injEq] at herr
      subst herr
      exact ⟨⟨_, rfl⟩, rfl⟩
    · split at herr
      · exact absurd herr (by simp)
      · simp only [Option.some.injEq] at herr
        subst herr
        exact ⟨⟨_, rfl⟩, rfl⟩
  · intro e he
    rcases hr : r.Check ctx s with ⟨o, s1⟩
    rw [hr] at he
    simp only at he
    subst he
    constructor
    · have h1 : "AND rule failed: " ++ ("rule " ++ toString 1 ++ ": " ++ e.Error)
          = "AND rule failed: rule 1: " ++ e.Error := by
        rw [← String.append_assoc]
        congr 1
      simp [AndRule.Check, And, AndRule.loop, hr, ruleEntry, NewAccessError,
        String.intercalate, String.intercalate.go, h1]
    · have h2 : "OR rule failed: none of the rules passed: "
            ++ ("rule " ++ toString 1 ++ ": " ++ e.Error)
          = "OR rule failed: none of the rules passed: rule 1: " ++ e.Error := by
        rw [← String.append_assoc]
        congr 1
      simp [OrRule.Check, Or, OrRule.loop, hr, ruleEntry, NewAccessError,
        String.intercalate, String.intercalate.go, h2]

/-- Witness of C2 as amended: a single child failing with an infrastructure error. -/
theorem combinators_turn_child_errors_into_denials_witness :
    ((infraRule : Rule Unit).Check sampleCtx ()).1 = some ledgerDown ∧
    ((And [(infraRule : Rule Unit)]).Check sampleCtx ()).1
      = some (GoError.accessError "AND rule failed: rule 1: ledger unavailable" none) ∧
    ((Or [(infraRule : Rule Unit)]).Check sampleCtx ()).1
      = some (GoError.accessError
          "OR rule failed: none of the rules passed: rule 1: ledger unavailable" none) :=
  have h := (combinators_turn_child_errors_into_denials
    [(infraRule : Rule Unit)] infraRule sampleCtx ()).2.2 ledgerDown (by decide)
  ⟨by decide, h.1.trans (by decide), h.2.trans (by decide)⟩

/-- C2 as stated fails: the child `infraRule` returns the infrastructure error
`ledgerDown`, on which `AsAccessError` reports false, yet `And(infraRule)` and
`Or(infraRule)` do not return `ledgerDown`: each returns an error on which
`AsAccessError` reports true. -/
theorem combinators_propagate_infra_error_counterexample :
    ((infraRule : Rule Unit).Check sampleCtx ()).1 = some ledgerDown ∧
    (AsAccessError (some ledgerDown)).2 = false ∧
    ((And [(infraRule : Rule Unit)]).Check sampleCtx ()).1 ≠ some ledgerDown ∧
    (AsAccessError ((And [(infraRule : Rule Unit)]).Check sampleCtx ()).1).2 = true ∧
    ((Or [(infraRule : Rule Unit)]).Check sampleCtx ()).1 ≠ some ledgerDown ∧
    (AsAccessError ((Or [(infraRule : Rule Unit)]).Check sampleCtx ()).1).2 = true := by
  decide

/-! ## The controller -/

/-- C9: `New(rs...).Check(ctx)` and `CheckAccess(ctx, rs...)` return the same result;
it is nil when every rule succeeds (so for the empty list), and otherwise it is the very
error value returned by the first failing rule, at 1-based position `k + 1`: the state
left is the one left by calling the rules at positions `1..k+1` once each in order and
the call log is `[1, ..., k+1]`, so no later rule is evaluated. -/
theorem controller_Check_returns_first_failure {σ : Type} (rs : List (Rule σ))
    (ctx : TransactionContext) (s : σ) :
    CheckAccess ctx rs s = (New rs).Check ctx s ∧
    (New ([] : List (Rule σ))).Check ctx s = (none, s) ∧
    ((∀ o ∈ outcomes ctx rs s, o = none) → ((New rs).Check ctx s).1 = none) ∧
    (∀ k e, (outcomes ctx rs s)[k]? = some (some e) →
      (∀ j, j < k → (outcomes ctx rs s)[j]? = some none) →
      (New rs).Check ctx s = (some e, runAll ctx (rs.take (k + 1)) s) ∧
      ((New (instrument rs)).Check ctx (s, [])).2.2 = List.range' 1 (k + 1)) := by
  refine ⟨rfl, ?_, ?_, ?_⟩
  · simp [controller.Check, New]
  · intro h
    rw [controller_Check_eq_loop, controller_loop_all_pass ctx rs s h]
  · intro k e hk hfirst
    have hlen : k < rs.length := by
      have := (List.getElem?_eq_some.mp hk).1
      simpa [outcomes_length] using this
    have hk2 : (outcomes ctx (instrument rs) (s, ([] : List Nat)))[k]? = some (some e) := by
      simpa [instrument, outcomes_instrumentFrom] using hk
    have hfirst2 : ∀ j, j < k →
        (outcomes ctx (instrument rs) (s, ([] : List Nat)))[j]? = some none := by
      intro j hj
      simpa [instrument, outcomes_instrumentFrom] using hfirst j hj
    constructor
    · rw [controller_Check_eq_loop, controller_loop_first_fail ctx rs s k e hk hfirst]
    · rw [controller_Check_eq_loop,
        controller_loop_first_fail ctx (instrument rs) (s, []) k e hk2 hfirst2]
      simp only [instrument, instrumentFrom_take, runAll_instrumentFrom, List.nil_append,
        List.length_take]
      congr 1
      omega

/-- Witness of C9: the second of three rules is the first to fail; its own error comes
back and the third rule is not called. -/
theorem controller_Check_returns_first_failure_witness :
    (outcomes sampleCtx [(passRule : Rule Unit), (AlwaysDeny "closed").toRule, infraRule] ())[1]?
        = some (some (GoError.accessError "closed" none)) ∧
    (New [(passRule : Rule Unit), (AlwaysDeny "closed").toRule, infraRule]).Check sampleCtx ()
        = (some (GoError.accessError "closed" none), ()) ∧
    ((New (instrument [(passRule : Rule Unit), (AlwaysDeny "closed").toRule, infraRule])).Check
        sampleCtx ((), [])).2.2 = [1, 2] :=
  have h := (controller_Check_returns_first_failure
    [(passRule : Rule Unit), (AlwaysDeny "closed").toRule, infraRule] sampleCtx ()).2.2.2
    1 (GoError.accessError "closed" none) (by decide) (by decide)
  ⟨by decide, h.1.trans (by decide), h.2.trans (by decide)⟩

/-! ## The predicate rules: failing identity reads -/

/-- C10, as the code has it: when the identity read a predicate rule depends on fails
with an error `e`, `Check` returns a `*fmt.wrapError` built by `fmt.Errorf` with `%w`:
its message is a prefix fixed by the rule followed by `e.Error()` and its `Unwrap` is
`e`. The reads are `GetMSPID` for the MSPID rules; `GetMSPID` and, once that has
succeeded, `GetX509Certificate` for the OU rules; `GetAttributeValue` for the role and
attribute rules. Such a wrapper is not itself an `AccessError`, and `AsAccessError`
reports on it exactly what it reports on `e`. The OU rules return these wrappers before
they touch the certificate, so the calls return whatever the certificate read would
yield. -/
theorem predicate_rules_wrap_read_errors (ctx : TransactionContext) (e : GoError)
    (x u name value : String) (xs us : List String) :
    (ctx.GetClientIdentity.GetMSPID = .error e →
      (RequireMSPID x).Check ctx
        = some (GoError.wrapError ("failed to get MSPID: " ++ e.Error) e) ∧
      (RequireAnyMSPID xs).Check ctx
        = some (GoError.wrapError ("failed to get MSPID: " ++ e.Error) e) ∧
      (RequireOU u).Check ctx
        = .returned (some (GoError.wrapError ("failed to get MSPID: " ++ e.Error) e)) ∧
      (RequireAnyOU us).Check ctx
        = .returned (some (GoError.wrapError ("failed to get MSPID: " ++ e.Error) e))) ∧
    (∀ mspid, ctx.GetClientIdentity.GetMSPID = .ok mspid →
      ctx.GetClientIdentity.GetX509Certificate = .error e →
      (RequireOU u).Check ctx
        = .returned
            (some (GoError.wrapError ("failed to get X509 certificate: " ++ e.Error) e)) ∧
      (RequireAnyOU us).Check ctx
        = .returned
            (some (GoError.wrapError ("failed to get X509 certificate: " ++ e.Error) e))) ∧
    (ctx.GetClientIdentity.GetAttributeValue "role" = .error e →
      (RequireRole x).Check ctx
        = some (GoError.wrapError ("failed to get role attribute: " ++ e.Error) e) ∧
      (RequireAnyRole xs).Check ctx
        = some (GoError.wrapError ("failed to get role attribute: " ++ e.Error) e)) ∧
    (ctx.GetClientIdentity.GetAttributeValue name = .error e →
      (RequireAttribute name value).Check ctx
        = some (GoError.wrapError
            ("failed to get attribute '" ++ name ++ "': " ++ e.Error) e) ∧
      (RequireHasAttribute name).Check ctx
        = some (GoError.wrapError
            ("failed to check attribute '" ++ name ++ "': " ++ e.Error) e)) ∧
    (∀ msg, (GoError.wrapError msg e).Error = msg ∧
      (GoError.wrapError msg e).Unwrap = some e ∧
      (∀ reason cause, GoError.wrapError msg e ≠ GoError.accessError reason cause) ∧
      AsAccessError (some (GoError.wrapError msg e)) = AsAccessError (some e)) := by
  refine ⟨?_, ?_, ?_, ?_, ?_⟩
  · intro h
    simp [MSPIDRule.Check, AnyMSPIDRule.Check, OURule.Check, AnyOURule.Check,
      RequireMSPID, RequireAnyMSPID, RequireOU, RequireAnyOU, h, Errorf_w]
  · intro mspid h1 h2
    simp [OURule.Check, AnyOURule.Check, RequireOU, RequireAnyOU, h1, h2, Errorf_w]
  · intro h
    simp [RoleRule.Check, AnyRoleRule.Check, RequireRole, RequireAnyRole, h, Errorf_w]
  · intro h
    simp [AttributeRule.Check, HasAttributeRule.Check, RequireAttribute,
      RequireHasAttribute, h, Errorf_w]
  · intro msg
    refine ⟨rfl, rfl, ?_, ?_⟩
    · intro reason cause hc
      cases hc
    · simp [AsAccessError, GoError.asAccessError]

/-- Witness of C10 as amended: every read fails with `ledgerDown`; the MSPID rule and
the attribute rule return wrappers of it. -/
theorem predicate_rules_wrap_read_errors_witness :
    (failingCtx ledgerDown).GetClientIdentity.GetMSPID = .error ledgerDown ∧
    (RequireMSPID "Org1MSP").Check (failingCtx ledgerDown)
      = some (GoError.wrapError "failed to get MSPID: ledger unavailable" ledgerDown) ∧
    (RequireAttribute "dept" "eng").Check (failingCtx ledgerDown)
      = some (GoError.wrapError
          "failed to get attribute 'dept': ledger unavailable" ledgerDown) ∧
    (RequireOU "sales").Check (failingCertCtx ledgerDown)
      = .returned (some (GoError.wrapError
          "failed to get X509 certificate: ledger unavailable" ledgerDown)) :=
  have h := predicate_rules_wrap_read_errors (failingCtx ledgerDown) ledgerDown
    "Org1MSP" "sales" "dept" "eng" [] []
  have h2 := predicate_rules_wrap_read_errors (failingCertCtx ledgerDown) ledgerDown
    "Org1MSP" "sales" "dept" "eng" [] []
  ⟨rfl, (h.1 rfl).1.trans (by decide), (h.2.2.2.1 rfl).1.trans (by decide),
   (h2.2.1 "Org1MSP" rfl rfl).1.trans (by decide)⟩

/-- C10 as stated fails: the `GetMSPID` read fails with `ledgerDown`, and
`RequireMSPID("Org1MSP").Check` does not return `ledgerDown` but an error with another
message that wraps it. -/
theorem predicate_rules_return_raw_error_counterexample :
    (failingCtx ledgerDown).GetClientIdentity.GetMSPID = .error ledgerDown ∧
    (RequireMSPID "Org1MSP").Check (failingCtx ledgerDown) ≠ some ledgerDown ∧
    ((RequireMSPID "Org1MSP").Check (failingCtx ledgerDown)).map GoError.Error
      = some "failed to get MSPID: ledger unavailable" ∧
    ledgerDown.Error = "ledger unavailable" :=
  ⟨rfl, by decide, by decide, by decide⟩

/-! ## The predicate rules: successful identity reads -/

/-- C11: when the `GetAttributeValue("role")` read succeeds: if the attribute is present
with value `v`, `RequireRole(x).Check` succeeds iff `v == x` and
`RequireAnyRole(xs...).Check` succeeds iff `v` is a member of `xs`, and on mismatch each
returns an `AccessError` whose reason names the requirement and `v`; if the attribute is
absent, both return a non-nil error on which `AsAccessError` reports false, whatever the
expected role or role set. -/
theorem role_rules_present_absent (ctx : TransactionContext) (x v : String)
    (xs : List String) (found : Bool)
    (h : ctx.GetClientIdentity.GetAttributeValue "role" = .ok (v, found)) :
    (found = true →
      ((RequireRole x).Check ctx = none ↔ v = x) ∧
      ((RequireAnyRole xs).Check ctx = none ↔ v ∈ xs) ∧
      (v ≠ x → (RequireRole x).Check ctx
        = some (GoError.accessError ("required role '" ++ x ++ "', got '" ++ v ++ "'") none)) ∧
      (v ∉ xs → (RequireAnyRole xs).Check ctx
        = some (GoError.accessError
            ("required one of roles " ++ fmtStrings xs ++ ", got '" ++ v ++ "'") none))) ∧
    (found = false →
      (RequireRole x).Check ctx
        = some (GoError.errorString "role attribute not found in identity") ∧
      (RequireAnyRole xs).Check ctx
        = some (GoError.errorString "role attribute not found in identity") ∧
      (AsAccessError ((RequireRole x).Check ctx)).2 = false ∧
      (AsAccessError ((RequireAnyRole xs).Check ctx)).2 = false) := by
  constructor
  · intro hf
    subst hf
    refine ⟨?_, ?_, ?_, ?_⟩
    · by_cases hv : v = x <;>
        simp [RoleRule.Check, RequireRole, h, hv]
    · by_cases hv : v ∈ xs <;>
        simp [AnyRoleRule.Check, RequireAnyRole, h, hv, slices.Contains]
    · intro hv
      simp [RoleRule.Check, RequireRole, h, hv, NewAccessError]
    · intro hv
      simp [AnyRoleRule.Check, RequireAnyRole, h, hv, slices.Contains, NewAccessError]
  · intro hf
    subst hf
    simp [RoleRule.Check, AnyRoleRule.Check, RequireRole, RequireAnyRole, h,
      AsAccessError, GoError.asAccessError]

/-- Witness of C11: the role `admin` is present in `sampleCtx` and absent from a context
without attributes. -/
theorem role_rules_present_absent_witness :
    sampleCtx.GetClientIdentity.GetAttributeValue "role" = .ok ("admin", true) ∧
    (RequireRole "admin").Check sampleCtx = none ∧
    (RequireAnyRole ["auditor", "clerk"]).Check sampleCtx
      = some (GoError.accessError
          "required one of roles [auditor clerk], got 'admin'" none) ∧
    (RequireRole "admin").Check (ctxOf "Org1MSP" [] [])
      = some (GoError.errorString "role attribute not found in identity") :=
  have h1 := (role_rules_present_absent sampleCtx "admin" "admin" ["auditor", "clerk"]
    true rfl).1 rfl
  have h2 := (role_rules_present_absent (ctxOf "Org1MSP" [] []) "admin" ""
    ["auditor", "clerk"] false rfl).2 rfl
  ⟨rfl, h1.1.mpr rfl, (h1.2.2.2 (by decide)).trans (by decide), h2.1⟩

/-- C12: when the `GetMSPID` read succeeds with value `m`: `RequireMSPID(x).Check` returns
nil iff `m == x` and otherwise the `AccessError` with reason
"required MSPID 'x', got 'm'"; `RequireAnyMSPID(xs...).Check` returns nil iff `m` is a
member of `xs` and otherwise an `AccessError`, so with an empty set it denies for
every `m`. -/
theorem mspid_rules_match (ctx : TransactionContext) (x m : String) (xs : List String)
    (h : ctx.GetClientIdentity.GetMSPID = .ok m) :
    ((RequireMSPID x).Check ctx = none ↔ m = x) ∧
    (m ≠ x → (RequireMSPID x).Check ctx
      = some (GoError.accessError ("required MSPID '" ++ x ++ "', got '" ++ m ++ "'") none)) ∧
    ((RequireAnyMSPID xs).Check ctx = none ↔ m ∈ xs) ∧
    (m ∉ xs → (RequireAnyMSPID xs).Check ctx
      = some (GoError.accessError
          ("required one of MSPIDs " ++ fmtStrings xs ++ ", got '" ++ m ++ "'") none)) ∧
    (RequireAnyMSPID []).Check ctx
      = some (GoError.accessError ("required one of MSPIDs [], got '" ++ m ++ "'") none) := by
  refine ⟨?_, ?_, ?_, ?_, ?_⟩
  · by_cases hm : m = x <;> simp [MSPIDRule.Check, RequireMSPID, h, hm]
  · intro hm
    simp [MSPIDRule.Check, RequireMSPID, h, hm, NewAccessError]
  · by_cases hm : m ∈ xs <;>
      simp [AnyMSPIDRule.Check, RequireAnyMSPID, h, hm, slices.Contains]
  · intro hm
    simp [AnyMSPIDRule.Check, RequireAnyMSPID, h, hm, slices.Contains, NewAccessError]
  · have hb : fmtStrings [] = "[]" := by decide
    simp [AnyMSPIDRule.Check, RequireAnyMSPID, h, slices.Contains, NewAccessError, hb]

/-- Witness of C12: the caller of `sampleCtx` belongs to `Org1MSP`. -/
theorem mspid_rules_match_witness :
    sampleCtx.GetClientIdentity.GetMSPID = .ok "Org1MSP" ∧
    (RequireMSPID "Org1MSP").Check sampleCtx = none ∧
    (RequireMSPID "Org2MSP").Check sampleCtx
      = some (GoError.accessError "required MSPID 'Org2MSP', got 'Org1MSP'" none) ∧
    (RequireAnyMSPID ["Org2MSP", "Org1MSP"]).Check sampleCtx = none :=
  have h := mspid_rules_match sampleCtx "Org1MSP" "Org1MSP" ["Org2MSP", "Org1MSP"] rfl
  have h2 := mspid_rules_match sampleCtx "Org2MSP" "Org1MSP" [] rfl
  ⟨rfl, h.1.mpr rfl, (h2.2.1 (by decide)).trans (by decide), h.2.2.1.mpr (by decide)⟩

/-- With a certificate at hand the OU rules do what is expected of them: when the
`GetMSPID` read succeeds with `m` and the `GetX509Certificate` read returns a certificate
with units `us`, `RequireOU(u).Check` returns nil iff `u` is an element of `us`, and
`RequireAnyOU(vs...).Check` returns nil iff some element of `vs` is an element of `us`;
otherwise each returns an `AccessError` whose reason names the expected unit(s)
and `m`. -/
theorem ou_rules_match (ctx : TransactionContext) (u m : String) (vs : List String)
    (cert : Certificate)
    (h1 : ctx.GetClientIdentity.GetMSPID = .ok m)
    (h2 : ctx.GetClientIdentity.GetX509Certificate = .ok (some cert)) :
    ((RequireOU u).Check ctx = .returned none ↔ u ∈ cert.Subject.OrganizationalUnit) ∧
    (u ∉ cert.Subject.OrganizationalUnit → (RequireOU u).Check ctx
      = .returned (some
          (GoError.accessError ("required OU '" ++ u ++ "', MSP: " ++ m) none))) ∧
    ((RequireAnyOU vs).Check ctx = .returned none
      ↔ ∃ v ∈ vs, v ∈ cert.Subject.OrganizationalUnit) ∧
    ((¬ ∃ v ∈ vs, v ∈ cert.Subject.OrganizationalUnit) → (RequireAnyOU vs).Check ctx
      = .returned (some (GoError.accessError
          ("required one of OUs " ++ fmtStrings vs ++ ", MSP: " ++ m) none))) := by
  have hany : (cert.Subject.OrganizationalUnit.any
      (fun certOU => slices.Contains vs certOU) = true)
      ↔ ∃ v ∈ vs, v ∈ cert.Subject.OrganizationalUnit := by
    simp only [List.any_eq_true, slices.Contains, List.contains, List.elem_iff]
    constructor
    · rintro ⟨c, hc, hv⟩
      exact ⟨c, hv, hc⟩
    · rintro ⟨v, hv, hc⟩
      exact ⟨v, hc, hv⟩
  refine ⟨?_, ?_, ?_, ?_⟩
  · by_cases hu : u ∈ cert.Subject.OrganizationalUnit <;>
      simp [OURule.Check, RequireOU, h1, h2, hu, slices.Contains]
  · intro hu
    simp [OURule.Check, RequireOU, h1, h2, hu, slices.Contains, NewAccessError]
  · rw [← hany]
    by_cases hc : cert.Subject.OrganizationalUnit.any
        (fun certOU => slices.Contains vs certOU) = true <;>
      simp only [AnyOURule.Check, RequireAnyOU, h1, h2, hc] <;> simp
  · intro hn
    rw [← hany] at hn
    simp only [AnyOURule.Check, RequireAnyOU, h1, h2, hn]
    simp [NewAccessError]

/-- The lemma `ou_rules_match` on `sampleCtx`, whose certificate carries the single unit
`sales`. -/
theorem ou_rules_match_witness :
    sampleCtx.GetClientIdentity.GetMSPID = .ok "Org1MSP" ∧
    (RequireOU "sales").Check sampleCtx = .returned none ∧
    (RequireOU "manufacturing").Check sampleCtx
      = .returned (some
          (GoError.accessError "required OU 'manufacturing', MSP: Org1MSP" none)) ∧
    (RequireAnyOU ["legal", "sales"]).Check sampleCtx = .returned none :=
  have h := ou_rules_match sampleCtx "sales" "Org1MSP" ["legal", "sales"]
    { Subject := { OrganizationalUnit := ["sales"] } } rfl rfl
  have h2 := ou_rules_match sampleCtx "manufacturing" "Org1MSP" []
    { Subject := { OrganizationalUnit := ["sales"] } } rfl rfl
  ⟨rfl, h.1.mpr (by decide), (h2.2.1 (by decide)).trans (by decide),
   h.2.2.1.mpr ⟨"sales", by decide, by decide⟩⟩

/-- Whenever the `GetMSPID` read succeeds and the `GetX509Certificate` read returns
`(nil, nil)`, both OU rules panic. -/
theorem ou_rules_panic_of_nil_certificate (ctx : TransactionContext) (u m : String)
    (vs : List String)
    (h1 : ctx.GetClientIdentity.GetMSPID = .ok m)
    (h2 : ctx.GetClientIdentity.GetX509Certificate = .ok none) :
    (RequireOU u).Check ctx = .panicked ∧ (RequireAnyOU vs).Check ctx = .panicked := by
  simp [OURule.Check, AnyOURule.Check, RequireOU, RequireAnyOU, h1, h2]

/-- C13 fails on the code for an identity without an X.509 certificate: on `nilCertCtx`
the `GetMSPID` read succeeds and the `GetX509Certificate` read succeeds with the result
`(nil, nil)`, and both `RequireOU("sales").Check` and `RequireAnyOU("sales", "legal").Check`
panic: they return neither nil nor an `AccessError`. -/
theorem ou_rules_panic_on_nilCertCtx :
    nilCertCtx.GetClientIdentity.GetMSPID = .ok "Org1MSP" ∧
    nilCertCtx.GetClientIdentity.GetX509Certificate = .ok none ∧
    (RequireOU "sales").Check nilCertCtx = .panicked ∧
    (RequireAnyOU ["sales", "legal"]).Check nilCertCtx = .panicked ∧
    (RequireOU "sales").Check nilCertCtx ≠ .returned none ∧
    (∀ reason cause, (RequireOU "sales").Check nilCertCtx
      ≠ .returned (some (GoError.accessError reason cause))) ∧
    (RequireAnyOU ["sales", "legal"]).Check nilCertCtx ≠ .returned none ∧
    (∀ reason cause, (RequireAnyOU ["sales", "legal"]).Check nilCertCtx
      ≠ .returned (some (GoError.accessError reason cause))) := by
  have h1 : (RequireOU "sales").Check nilCertCtx = .panicked := by decide
  have h2 : (RequireAnyOU ["sales", "legal"]).Check nilCertCtx = .panicked := by decide
  refine ⟨rfl, rfl, h1, h2, ?_, ?_, ?_, ?_⟩
  · rw [h1]
    exact fun h => CheckResult.noConfusion h
  · intro reason cause
    rw [h1]
    exact fun h => CheckResult.noConfusion h
  · rw [h2]
    exact fun h => CheckResult.noConfusion h
  · intro reason cause
    rw [h2]
    exact fun h => CheckResult.noConfusion h

/-- C14: when the `GetAttributeValue(n)` read succeeds with value `a` and presence flag
`found`: `RequireAttribute(n, v).Check` returns nil iff the attribute is present and `v`
is empty or `a` equals `v`; when the attribute is absent it returns the `AccessError` with
reason "attribute 'n' not found", when present but mismatched the `AccessError` with
reason "attribute 'n' has value 'a', expected 'v'", and the two reasons differ. In
particular `RequireAttribute(n, "")` succeeds iff the attribute is present, and returns
what `RequireHasAttribute(n)` returns. -/
theorem attribute_rule_match (ctx : TransactionContext) (n v a : String) (found : Bool)
    (h : ctx.GetClientIdentity.GetAttributeValue n = .ok (a, found)) :
    ((RequireAttribute n v).Check ctx = none ↔ found = true ∧ (v = "" ∨ a = v)) ∧
    (found = false → (RequireAttribute n v).Check ctx
      = some (GoError.accessError ("attribute '" ++ n ++ "' not found") none)) ∧
    (found = true → v ≠ "" → a ≠ v → (RequireAttribute n v).Check ctx
      = some (GoError.accessError
          ("attribute '" ++ n ++ "' has value '" ++ a ++ "', expected '" ++ v ++ "'")
          none)) ∧
    ("attribute '" ++ n ++ "' has value '" ++ a ++ "', expected '" ++ v ++ "'"
      ≠ "attribute '" ++ n ++ "' not found") ∧
    ((RequireAttribute n "").Check ctx = none ↔ found = true) ∧
    ((RequireHasAttribute n).Check ctx = none ↔ found = true) ∧
    (RequireAttribute n "").Check ctx = (RequireHasAttribute n).Check ctx := by
  refine ⟨?_, ?_, ?_, ?_, ?_, ?_, ?_⟩
  · cases found with
    | false => simp [AttributeRule.Check, RequireAttribute, h]
    | true =>
      by_cases hv : v = ""
      · simp [AttributeRule.Check, RequireAttribute, h, hv]
      · by_cases ha : a = v <;> simp [AttributeRule.Check, RequireAttribute, h, hv, ha]
  · intro hf
    subst hf
    simp [AttributeRule.Check, RequireAttribute, h, NewAccessError]
  · intro hf hv ha
    subst hf
    simp [AttributeRule.Check, RequireAttribute, h, hv, ha, NewAccessError]
  · intro heq
    have hd := congrArg String.data heq
    simp only [String.data_append, List.append_assoc, List.append_cancel_left_eq] at hd
    simp at hd
  · cases found <;> simp [AttributeRule.Check, RequireAttribute, h]
  · cases found <;> simp [HasAttributeRule.Check, RequireHasAttribute, h]
  · cases found <;>
      simp [AttributeRule.Check, RequireAttribute, HasAttributeRule.Check,
        RequireHasAttribute, h]

/-- Witness of C14: the attribute `dept = eng` is present; `level` is absent. -/
theorem attribute_rule_match_witness :
    (ctxOf "Org1MSP" [] [("dept", "eng")]).GetClientIdentity.GetAttributeValue "dept"
      = .ok ("eng", true) ∧
    (RequireAttribute "dept" "").Check (ctxOf "Org1MSP" [] [("dept", "eng")]) = none ∧
    (RequireAttribute "dept" "ops").Check (ctxOf "Org1MSP" [] [("dept", "eng")])
      = some (GoError.accessError "attribute 'dept' has value 'eng', expected 'ops'" none) ∧
    (RequireAttribute "level" "").Check (ctxOf "Org1MSP" [] [("dept", "eng")])
      = some (GoError.accessError "attribute 'level' not found" none) :=
  have h := attribute_rule_match (ctxOf "Org1MSP" [] [("dept", "eng")]) "dept" "ops" "eng"
    true rfl
  have h2 := attribute_rule_match (ctxOf "Org1MSP" [] [("dept", "eng")]) "level" "" ""
    false rfl
  ⟨rfl, h.2.2.2.2.1.mpr rfl, (h.2.2.1 rfl (by decide) (by decide)).trans (by decide),
   (h2.2.1 rfl).trans (by decide)⟩

/-- C15: `RequireHLFAdmin().Check` returns nil iff `AssertAttributeValue("hf.Type", "admin")`
returns nil, and `RequireHLFClient().Check` returns nil iff
`AssertAttributeValue("hf.Type", "client")` returns nil; when the assertion fails with
an error `e`, the rule returns an `AccessError` whose cause, also the result of `Unwrap`,
is `e` itself. -/
theorem hlf_rules_wrap_assertion (ctx : TransactionContext) :
    (RequireHLFAdmin.Check ctx = none
      ↔ ctx.GetClientIdentity.AssertAttributeValue "hf.Type" "admin" = none) ∧
    (RequireHLFClient.Check ctx = none
      ↔ ctx.GetClientIdentity.AssertAttributeValue "hf.Type" "client" = none) ∧
    (∀ e, ctx.GetClientIdentity.AssertAttributeValue "hf.Type" "admin" = some e →
      RequireHLFAdmin.Check ctx
        = some (GoError.accessError "admin type required in hf.Type attribute" (some e)) ∧
      (RequireHLFAdmin.Check ctx).bind GoError.Unwrap = some e) ∧
    (∀ e, ctx.GetClientIdentity.AssertAttributeValue "hf.Type" "client" = some e →
      RequireHLFClient.Check ctx
        = some (GoError.accessError "client type required in hf.Type attribute" (some e)) ∧
      (RequireHLFClient.Check ctx).bind GoError.Unwrap = some e) := by
  refine ⟨?_, ?_, ?_, ?_⟩
  · cases h : ctx.GetClientIdentity.AssertAttributeValue "hf.Type" "admin" <;>
      simp [IsHLFAdmintRule.Check, h]
  · cases h : ctx.GetClientIdentity.AssertAttributeValue "hf.Type" "client" <;>
      simp [IsHLFClientRule.Check, h]
  · intro e h
    simp [IsHLFAdmintRule.Check, h, WrapAccessError, GoError.Unwrap]
  · intro e h
    simp [IsHLFClientRule.Check, h, WrapAccessError, GoError.Unwrap]

/-- Witness of C15: an identity of type `client` passes the client rule and is denied by
the admin rule, the denial wrapping the assertion's own error. -/
theorem hlf_rules_wrap_assertion_witness :
    RequireHLFClient.Check (ctxOf "Org1MSP" [] [("hf.Type", "client")]) = none ∧
    RequireHLFAdmin.Check (ctxOf "Org1MSP" [] [("hf.Type", "client")])
      = some (GoError.accessError "admin type required in hf.Type attribute"
          (some (GoError.errorString "attribute 'hf.Type' is not 'admin'"))) :=
  have h := hlf_rules_wrap_assertion (ctxOf "Org1MSP" [] [("hf.Type", "client")])
  ⟨h.2.1.mpr (by decide),
   (h.2.2.1 (GoError.errorString "attribute 'hf.Type' is not 'admin'") (by decide)).1⟩

/-! ## AlwaysDeny and the error model -/

theorem asAccessError_eq_none_of_chain :
    ∀ e : GoError, (∀ x ∈ e.chain, x.isAccessError = false) → e.asAccessError = none
  | .accessError reason none, h => by
    simp [GoError.chain, GoError.isAccessError] at h
  | .accessError reason (some cause), h => by
    simp [GoError.chain, GoError.isAccessError] at h
  | .wrapError msg err, h => by
    have h2 : ∀ x ∈ err.chain, x.isAccessError = false := by
      intro x hx
      exact h x (by simp [GoError.chain, hx])
    simpa [GoError.asAccessError] using asAccessError_eq_none_of_chain err h2
  | .errorString _, _ => rfl

/-- C18: `AlwaysDeny(m).Check(ctx)` returns an `AccessError` with no cause whose reason
is `m` when `m` is non-empty and "access denied" when `m` is empty; the result is the
same on every context, and `Not(AlwaysDeny(m)).Check(ctx)` returns nil on every
context and state. -/
theorem AlwaysDeny_Check_denies {σ : Type} (m : String) (ctx ctx2 : TransactionContext)
    (s : σ) :
    (AlwaysDeny m).Check ctx
      = some (GoError.accessError (if m = "" then "access denied" else m) none) ∧
    (AlwaysDeny "").Check ctx = some (GoError.accessError "access denied" none) ∧
    (AlwaysDeny m).Check ctx = (AlwaysDeny m).Check ctx2 ∧
    (Not ((AlwaysDeny m).toRule : Rule σ)).Check ctx s = (none, s) := by
  refine ⟨?_, ?_, ?_, ?_⟩
  · by_cases hm : m = "" <;> simp [AlwaysDenyRule.Check, AlwaysDeny, hm, NewAccessError]
  · simp [AlwaysDenyRule.Check, AlwaysDeny, NewAccessError]
  · simp [AlwaysDenyRule.Check]
  · by_cases hm : m = "" <;>
      simp [NotRule.Check, Not, AlwaysDenyRule.toRule, pureRule, AlwaysDenyRule.Check,
        AlwaysDeny, hm]

/-- C19: for a reason `r` and a non-nil cause `c`, `e = WrapAccessError(r, c)` has
`e.Reason == r`, `e.Unwrap() == c`,
`e.Error() == "access error: " ++ r ++ ": " ++ c.Error()`, and `AsAccessError(e)` returns
`(e, true)`; `NewAccessError(r)` has a nil `Unwrap()` and
`Error() == "access error: " ++ r`; `AsAccessError` returns false on every error whose
`Unwrap` chain holds no `AccessError`, and on nil. -/
theorem AccessError_wrapping_and_downcast (r : String) (c : GoError) :
    (WrapAccessError r (some c)).Reason = some r ∧
    (WrapAccessError r (some c)).Unwrap = some c ∧
    (WrapAccessError r (some c)).Error = "access error: " ++ r ++ ": " ++ c.Error ∧
    AsAccessError (some (WrapAccessError r (some c)))
      = (some (WrapAccessError r (some c)), true) ∧
    (NewAccessError r).Unwrap = none ∧
    (NewAccessError r).Error = "access error: " ++ r ∧
    (∀ e : GoError, (∀ x ∈ e.chain, x.isAccessError = false) →
      AsAccessError (some e) = (none, false)) ∧
    AsAccessError none = (none, false) := by
  refine ⟨rfl, rfl, rfl, rfl, rfl, rfl, ?_, rfl⟩
  intro e h
  simp [AsAccessError, asAccessError_eq_none_of_chain e h]

/-- Witness of C19: a chain of two `%w` wrappers over a plain error holds no
`AccessError`, and `AsAccessError` reports false on it. -/
theorem AccessError_wrapping_and_downcast_witness :
    (∀ x ∈ (Errorf_w "failed to get MSPID: " (Errorf_w "cid: " ledgerDown)).chain,
      x.isAccessError = false) ∧
    AsAccessError (some (Errorf_w "failed to get MSPID: " (Errorf_w "cid: " ledgerDown)))
      = (none, false) :=
  ⟨by decide,
   (AccessError_wrapping_and_downcast "denied" ledgerDown).2.2.2.2.2.2.1
     (Errorf_w "failed to get MSPID: " (Errorf_w "cid: " ledgerDown)) (by decide)⟩

/-! ## Trees of combinators -/

theorem AndRule_Check_fst_none_iff {σ : Type} (rs : List (Rule σ))
    (ctx : TransactionContext) (s : σ) :
    ((And rs).Check ctx s).1 = none ↔ ∀ o ∈ outcomes ctx rs s, o = none := by
  rw [AndRule_Check_eq]
  simp only [gt_iff_lt, List.length_pos, ne_eq]
  rw [← failureEntries_eq_nil_iff 0]
  by_cases h : failureEntries 0 (outcomes ctx rs s) = [] <;> simp [h]

theorem OrRule_Check_fst_none_iff {σ : Type} (rs : List (Rule σ))
    (ctx : TransactionContext) (s : σ) :
    ((Or rs).Check ctx s).1 = none ↔ ∃ o ∈ outcomes ctx rs s, o = none := by
  cases rs with
  | nil => simp [OrRule.Check, Or, outcomes]
  | cons r rs =>
    have hiff := OrRule_loop_none_iff ctx (r :: rs) 0 [] s
    rcases hl : OrRule.loop ctx (r :: rs) 0 [] s with ⟨o, s1⟩
    rw [hl] at hiff
    rw [← hiff]
    cases o <;> simp [OrRule.Check, Or, hl]

theorem NotRule_Check_fst_none_iff {σ : Type} (r : Rule σ)
    (ctx : TransactionContext) (s : σ) :
    ((Not r).Check ctx s).1 = none ↔ (r.Check ctx s).1 ≠ none := by
  rcases h : r.Check ctx s with ⟨o, s1⟩
  cases o <;> simp [NotRule.Check, Not, h]

theorem Deterministic_pureRule {σ : Type} (ctx : TransactionContext)
    (check : TransactionContext → Option GoError) :
    Deterministic ctx (pureRule check : Rule σ) := by
  intro s1 s2
  simp [pureRule]

theorem Deterministic_Not {σ : Type} (ctx : TransactionContext) (r : Rule σ)
    (h : Deterministic ctx r) : Deterministic ctx (Not r).toRule := by
  intro s1 s2
  simp only [NotRule.toRule, NotRule_Check_fst_none_iff, ne_eq]
  exact not_congr (h s1 s2)

theorem outcomes_all_none_iff {σ : Type} (ctx : TransactionContext) (rs : List (Rule σ))
    (hdet : ∀ r ∈ rs, Deterministic ctx r) (s s0 : σ) :
    (∀ o ∈ outcomes ctx rs s, o = none) ↔ ∀ r ∈ rs, (r.Check ctx s0).1 = none := by
  induction rs generalizing s with
  | nil => simp [outcomes]
  | cons r rs ih =>
    have hr := hdet r (List.mem_cons_self r rs)
    have hrs : ∀ q ∈ rs, Deterministic ctx q := fun q hq => hdet q (List.mem_cons_of_mem r hq)
    simp only [outcomes, List.mem_cons, forall_eq_or_imp]
    rw [ih hrs, hr s s0]

theorem outcomes_exists_none_iff {σ : Type} (ctx : TransactionContext) (rs : List (Rule σ))
    (hdet : ∀ r ∈ rs, Deterministic ctx r) (s s0 : σ) :
    (∃ o ∈ outcomes ctx rs s, o = none) ↔ ∃ r ∈ rs, (r.Check ctx s0).1 = none := by
  induction rs generalizing s with
  | nil => simp [outcomes]
  | cons r rs ih =>
    have hr := hdet r (List.mem_cons_self r rs)
    have hrs : ∀ q ∈ rs, Deterministic ctx q := fun q hq => hdet q (List.mem_cons_of_mem r hq)
    simp only [outcomes, List.mem_cons, exists_eq_or_imp]
    rw [ih hrs, hr s s0]

/-- C20: De Morgan duality on the outcome. For every list of rules (the empty list
included) whose outcomes on `ctx` are deterministic, `Not(And(rs...)).Check(ctx)` returns
nil iff `Or(Not(r1), ..., Not(rn)).Check(ctx)` returns nil, and
`Not(Or(rs...)).Check(ctx)` returns nil iff `And(Not(r1), ..., Not(rn)).Check(ctx)`
returns nil. -/
theorem de_morgan_on_outcomes {σ : Type} (rs : List (Rule σ)) (ctx : TransactionContext)
    (s : σ) (hdet : ∀ r ∈ rs, Deterministic ctx r) :
    (((Not (And rs).toRule).Check ctx s).1 = none
      ↔ ((Or (rs.map (fun r => (Not r).toRule))).Check ctx s).1 = none) ∧
    (((Not (Or rs).toRule).Check ctx s).1 = none
      ↔ ((And (rs.map (fun r => (Not r).toRule))).Check ctx s).1 = none) := by
  have hdetN : ∀ q ∈ rs.map (fun r => (Not r).toRule), Deterministic ctx q := by
    intro q hq
    simp only [List.mem_map] at hq
    obtain ⟨r, hr, rfl⟩ := hq
    exact Deterministic_Not ctx r (hdet r hr)
  constructor
  · rw [NotRule_Check_fst_none_iff, OrRule_Check_fst_none_iff,
      outcomes_exists_none_iff ctx _ hdetN s s]
    simp only [AndRule.toRule, ne_eq, AndRule_Check_fst_none_iff,
      outcomes_all_none_iff ctx rs hdet s s, List.mem_map, exists_exists_and_eq_and,
      NotRule.toRule, NotRule_Check_fst_none_iff]
    push_neg
    rfl
  · rw [NotRule_Check_fst_none_iff, AndRule_Check_fst_none_iff,
      outcomes_all_none_iff ctx _ hdetN s s]
    simp only [OrRule.toRule, ne_eq, OrRule_Check_fst_none_iff,
      outcomes_exists_none_iff ctx rs hdet s s, List.mem_map, forall_exists_index,
      and_imp, forall_apply_eq_imp_iff₂, NotRule.toRule, NotRule_Check_fst_none_iff]
    push_neg
    rfl

/-- Witness of C20: a passing rule and a rule failing with an infrastructure error. -/
theorem de_morgan_on_outcomes_witness :
    (∀ r ∈ [(passRule : Rule Unit), infraRule], Deterministic sampleCtx r) ∧
    ((Not (And [(passRule : Rule Unit), infraRule]).toRule).Check sampleCtx ()).1 = none ∧
    ((Or ([(passRule : Rule Unit), infraRule].map (fun r => (Not r).toRule))).Check
      sampleCtx ()).1 = none :=
  have hdet : ∀ r ∈ [(passRule : Rule Unit), infraRule], Deterministic sampleCtx r := by
    intro r hr
    simp only [List.mem_cons, List.mem_singleton, List.not_mem_nil, or_false] at hr
    rcases hr with rfl | rfl
    · exact Deterministic_pureRule sampleCtx _
    · exact Deterministic_pureRule sampleCtx _
  ⟨hdet, by decide,
   (de_morgan_on_outcomes [(passRule : Rule Unit), infraRule] sampleCtx () hdet).1.mp
     (by decide)⟩

theorem RuleTree_Check_nil_iff_eval_aux {σ : Type} (ctx : TransactionContext) (s0 : σ)
    (t : RuleTree σ) :
    t.leavesAll (Deterministic ctx) →
      ∀ s, (t.toRule.Check ctx s).1 = none ↔ t.eval ctx s0 = true :=
  @RuleTree.rec σ
    (fun t => t.leavesAll (Deterministic ctx) →
      ∀ s, (t.toRule.Check ctx s).1 = none ↔ t.eval ctx s0 = true)
    (fun ts => RuleTree.leavesAllList (Deterministic ctx) ts →
      (∀ s, (∀ o ∈ outcomes ctx (RuleTree.toRules ts) s, o = none)
        ↔ RuleTree.evalAll ctx s0 ts = true) ∧
      (∀ s, (∃ o ∈ outcomes ctx (RuleTree.toRules ts) s, o = none)
        ↔ RuleTree.evalAny ctx s0 ts = true))
    (by
      intro r hdet s
      simp only [RuleTree.leavesAll] at hdet
      simp only [RuleTree.toRule, RuleTree.eval, Option.isNone_iff_eq_none]
      exact hdet s s0)
    (by
      intro children ih hdet s
      simp only [RuleTree.leavesAll] at hdet
      simp only [RuleTree.toRule, RuleTree.eval, AndRule.toRule]
      rw [AndRule_Check_fst_none_iff]
      exact (ih hdet).1 s)
    (by
      intro children ih hdet s
      simp only [RuleTree.leavesAll] at hdet
      simp only [RuleTree.toRule, RuleTree.eval, OrRule.toRule]
      rw [OrRule_Check_fst_none_iff]
      exact (ih hdet).2 s)
    (by
      intro child ih hdet s
      simp only [RuleTree.leavesAll] at hdet
      simp only [RuleTree.toRule, RuleTree.eval, NotRule.toRule]
      rw [NotRule_Check_fst_none_iff, ne_eq, ih hdet s]
      simp)
    (by
      intro _
      simp [RuleTree.toRules, outcomes, RuleTree.evalAll, RuleTree.evalAny])
    (by
      intro head tail ih1 ih2 hdet
      simp only [RuleTree.leavesAllList] at hdet
      have h1 := ih1 hdet.1
      have h2 := ih2 hdet.2
      constructor
      · intro s
        simp only [RuleTree.toRules, outcomes, List.mem_cons, forall_eq_or_imp,
          RuleTree.evalAll, Bool.and_eq_true]
        rw [h1 s, h2.1]
      · intro s
        simp only [RuleTree.toRules, outcomes, List.mem_cons, exists_eq_or_imp,
          RuleTree.evalAny, Bool.or_eq_true]
        rw [h1 s, h2.2])
    t

/-- C16: for every finite rule tree built from `And`, `Or` and `Not` nodes over leaf rules
whose outcome on `ctx` is deterministic, `Check` on the tree returns nil if and only if
the boolean evaluation of the tree is true, a leaf being true iff its `Check` returns
nil, `And` the conjunction of its children (true for none), `Or` their disjunction
(false for none) and `Not` the negation. -/
theorem RuleTree_Check_nil_iff_eval {σ : Type} (t : RuleTree σ) (ctx : TransactionContext)
    (s s0 : σ) (hdet : t.leavesAll (Deterministic ctx)) :
    (t.toRule.Check ctx s).1 = none ↔ t.eval ctx s0 = true :=
  RuleTree_Check_nil_iff_eval_aux ctx s0 t hdet s

/-- Witness of C16: the tree `Or(And(pass, Not(infra)), Or())` evaluates to true and its
`Check` returns nil. -/
theorem RuleTree_Check_nil_iff_eval_witness :
    (RuleTree.or [.and [.leaf (passRule : Rule Unit), .not (.leaf infraRule)],
        .or []]).leavesAll (Deterministic sampleCtx) ∧
    (RuleTree.or [.and [.leaf (passRule : Rule Unit), .not (.leaf infraRule)],
        .or []]).eval sampleCtx () = true ∧
    ((RuleTree.or [.and [.leaf (passRule : Rule Unit), .not (.leaf infraRule)],
        .or []]).toRule.Check sampleCtx ()).1 = none :=
  have hdet : (RuleTree.or [.and [.leaf (passRule : Rule Unit), .not (.leaf infraRule)],
      .or []]).leavesAll (Deterministic sampleCtx) := by
    simp only [RuleTree.leavesAll, RuleTree.leavesAllList, and_true]
    exact ⟨Deterministic_pureRule sampleCtx _, Deterministic_pureRule sampleCtx _⟩
  ⟨hdet, by decide,
   (RuleTree_Check_nil_iff_eval
      (RuleTree.or [.and [.leaf (passRule : Rule Unit), .not (.leaf infraRule)], .or []])
      sampleCtx () () hdet).mpr (by decide)⟩

/-! ## Rules that may panic: agreement with the rules that return -/

theorem PAndRule_loop_toPRule {σ : Type} (ctx : TransactionContext) (rs : List (Rule σ))
    (i : Nat) (errors : List String) (s : σ) :
    PAndRule.loop ctx (rs.map Rule.toPRule) i errors s
      = some (AndRule.loop ctx rs i errors s) := by
  induction rs generalizing i errors s with
  | nil => simp [PAndRule.loop, AndRule.loop]
  | cons r rs ih =>
    rcases hr : r.Check ctx s with ⟨o, s1⟩
    cases o <;> simp [PAndRule.loop, AndRule.loop, Rule.toPRule, hr, ih]

theorem PAnd_Check_toPRule {σ : Type} (ctx : TransactionContext) (rs : List (Rule σ))
    (s : σ) :
    (PAnd (rs.map Rule.toPRule)).Check ctx s = some ((And rs).Check ctx s) := by
  simp only [PAndRule.Check, PAnd, AndRule.Check, And, PAndRule_loop_toPRule]
  split <;> rfl

theorem POrRule_loop_toPRule {σ : Type} (ctx : TransactionContext) (rs : List (Rule σ))
    (i : Nat) (errors : List String) (s : σ) :
    POrRule.loop ctx (rs.map Rule.toPRule) i errors s
      = some (OrRule.loop ctx rs i errors s) := by
  induction rs generalizing i errors s with
  | nil => simp [POrRule.loop, OrRule.loop]
  | cons r rs ih =>
    rcases hr : r.Check ctx s with ⟨o, s1⟩
    cases o <;> simp [POrRule.loop, OrRule.loop, Rule.toPRule, hr, ih]

theorem POr_Check_toPRule {σ : Type} (ctx : TransactionContext) (rs : List (Rule σ))
    (s : σ) :
    (POr (rs.map Rule.toPRule)).Check ctx s = some ((Or rs).Check ctx s) := by
  simp only [POrRule.Check, POr, OrRule.Check, Or, POrRule_loop_toPRule, List.length_map]
  split
  · rfl
  · rcases OrRule.loop ctx rs 0 [] s with ⟨o, s1⟩
    cases o <;> rfl

theorem PNot_Check_toPRule {σ : Type} (ctx : TransactionContext) (r : Rule σ) (s : σ) :
    (PNot r.toPRule).Check ctx s = some ((Not r).Check ctx s) := by
  rcases hr : r.Check ctx s with ⟨o, s1⟩
  cases o <;> simp [PNotRule.Check, PNot, NotRule.Check, Not, Rule.toPRule, hr]

theorem Pcontroller_loop_toPRule {σ : Type} (ctx : TransactionContext) (rs : List (Rule σ))
    (s : σ) :
    Pcontroller.loop ctx (rs.map Rule.toPRule) s = some (controller.loop ctx rs s) := by
  induction rs generalizing s with
  | nil => simp [Pcontroller.loop, controller.loop]
  | cons r rs ih =>
    rcases hr : r.Check ctx s with ⟨o, s1⟩
    cases o <;> simp [Pcontroller.loop, controller.loop, Rule.toPRule, hr, ih]

theorem PNew_Check_toPRule {σ : Type} (ctx : TransactionContext) (rs : List (Rule σ))
    (s : σ) :
    (PNew (rs.map Rule.toPRule)).Check ctx s = some ((New rs).Check ctx s) := by
  simp only [Pcontroller.Check, PNew, controller.Check, New, Pcontroller_loop_toPRule,
    List.length_map]
  split <;> rfl

theorem RuleTree_toPRuleTree_toPRule {σ : Type} (t : RuleTree σ) :
    t.toPRuleTree.toPRule = t.toRule.toPRule :=
  @RuleTree.rec σ
    (fun t => t.toPRuleTree.toPRule = t.toRule.toPRule)
    (fun ts => PRuleTree.toPRules (RuleTree.toPRuleTrees ts)
      = (RuleTree.toRules ts).map Rule.toPRule)
    (by
      intro r
      rfl)
    (by
      intro children ih
      simp only [RuleTree.toPRuleTree, PRuleTree.toPRule, RuleTree.toRule, ih]
      simp only [PAndRule.toPRule, Rule.toPRule, AndRule.toRule, PRule.mk.injEq]
      funext ctx s
      exact PAnd_Check_toPRule ctx _ s)
    (by
      intro children ih
      simp only [RuleTree.toPRuleTree, PRuleTree.toPRule, RuleTree.toRule, ih]
      simp only [POrRule.toPRule, Rule.toPRule, OrRule.toRule, PRule.mk.injEq]
      funext ctx s
      exact POr_Check_toPRule ctx _ s)
    (by
      intro child ih
      simp only [RuleTree.toPRuleTree, PRuleTree.toPRule, RuleTree.toRule, ih]
      simp only [PNotRule.toPRule, Rule.toPRule, NotRule.toRule, PRule.mk.injEq]
      funext ctx s
      exact PNot_Check_toPRule ctx _ s)
    (by
      simp [RuleTree.toPRuleTrees, PRuleTree.toPRules, RuleTree.toRules])
    (by
      intro head tail ih1 ih2
      simp [RuleTree.toPRuleTrees, PRuleTree.toPRules, RuleTree.toRules, ih1, ih2])
    t

theorem RuleTree_toPRuleTree_Check {σ : Type} (t : RuleTree σ) (ctx : TransactionContext)
    (s : σ) : t.toPRuleTree.toPRule.Check ctx s = some (t.toRule.Check ctx s) := by
  rw [RuleTree_toPRuleTree_toPRule]
  rfl

/-! ## Reasons of the denials of built-in rules -/

theorem String_ne_empty_of_data (str : String) (h : str.data ≠ []) : str ≠ "" := by
  intro he
  apply h
  rw [he]

theorem Pcontroller_loop_some_mem {σ : Type} (ctx : TransactionContext)
    (rs : List (PRule σ)) (s : σ) (e : GoError)
    (h : (Pcontroller.loop ctx rs s).map Prod.fst = some (some e)) :
    ∃ r ∈ rs, ∃ s1, (r.Check ctx s1).map Prod.fst = some (some e) := by
  induction rs generalizing s with
  | nil => simp [Pcontroller.loop] at h
  | cons r rs ih =>
    cases hr : r.Check ctx s with
    | none => simp [Pcontroller.loop, hr] at h
    | some res =>
      rcases res with ⟨o, s1⟩
      cases o with
      | some e2 =>
        simp only [Pcontroller.loop, hr, Option.map, Option.some.injEq] at h
        subst h
        exact ⟨r, List.mem_cons_self r rs, s, by simp [hr]⟩
      | none =>
        simp only [Pcontroller.loop, hr] at h
        obtain ⟨q, hq, s2, hs2⟩ := ih s1 h
        exact ⟨q, List.mem_cons_of_mem r hq, s2, hs2⟩

theorem PRuleTree_mem_toPRules {σ : Type} (P : PRule σ → Prop) (ts : List (PRuleTree σ))
    (h : PRuleTree.leavesAllList P ts) (r : PRule σ) (hr : r ∈ PRuleTree.toPRules ts) :
    ∃ t : PRuleTree σ, t.leavesAll P ∧ r = t.toPRule := by
  induction ts with
  | nil => simp [PRuleTree.toPRules] at hr
  | cons t ts ih =>
    simp only [PRuleTree.leavesAllList] at h
    simp only [PRuleTree.toPRules, List.mem_cons] at hr
    rcases hr with rfl | hr
    · exact ⟨t, h.1, rfl⟩
    · exact ih h.2 hr

theorem OURule_reason_ne_empty (u : String) (ctx : TransactionContext) (reason : String)
    (cause : Option GoError)
    (h : (RequireOU u).Check ctx = .returned (some (GoError.accessError reason cause))) :
    reason ≠ "" := by
  simp only [OURule.Check, RequireOU] at h
  split at h
  · simp [Errorf_w] at h
  · split at h
    · simp [Errorf_w] at h
    · simp at h
    · split at h
      · simp only [NewAccessError, CheckResult.returned.injEq, Option.some.injEq,
          GoError.accessError.injEq] at h
        rw [← h.1]
        exact String_ne_empty_of_data _ (by simp [String.data_append])
      · simp at h

theorem AnyOURule_reason_ne_empty (us : List String) (ctx : TransactionContext)
    (reason : String) (cause : Option GoError)
    (h : (RequireAnyOU us).Check ctx = .returned (some (GoError.accessError reason cause))) :
    reason ≠ "" := by
  simp only [AnyOURule.Check, RequireAnyOU] at h
  split at h
  · simp [Errorf_w] at h
  · split at h
    · simp [Errorf_w] at h
    · simp at h
    · split at h
      · simp at h
      · simp only [NewAccessError, CheckResult.returned.injEq, Option.some.injEq,
          GoError.accessError.injEq] at h
        rw [← h.1]
        exact String_ne_empty_of_data _ (by simp [String.data_append])

theorem BuiltinLeaf_reason_ne_empty {σ : Type} (r : PRule σ) (hb : BuiltinLeaf r)
    (ctx : TransactionContext) (s : σ) (reason : String) (cause : Option GoError)
    (h : (r.Check ctx s).map Prod.fst = some (some (GoError.accessError reason cause))) :
    reason ≠ "" := by
  cases hb with
  | mspid x =>
    simp only [Rule.toPRule, Option.map, Option.some.injEq, MSPIDRule.toRule, pureRule, MSPIDRule.Check, RequireMSPID] at h
    split at h
    · simp [Errorf_w] at h
    · split at h
      · simp only [NewAccessError, Option.some.injEq, GoError.accessError.injEq] at h
        rw [← h.1]
        exact String_ne_empty_of_data _ (by simp [String.data_append])
      · simp at h
  | anyMSPID xs =>
    simp only [Rule.toPRule, Option.map, Option.some.injEq, AnyMSPIDRule.toRule, pureRule, AnyMSPIDRule.Check, RequireAnyMSPID] at h
    split at h
    · simp [Errorf_w] at h
    · split at h
      · simp at h
      · simp only [NewAccessError, Option.some.injEq, GoError.accessError.injEq] at h
        rw [← h.1]
        exact String_ne_empty_of_data _ (by simp [String.data_append])
  | ou u =>
    cases hc : (RequireOU u).Check ctx with
    | panicked => simp [OURule.toPRule, hc] at h
    | returned err =>
      simp only [OURule.toPRule, hc, Option.map, Option.some.injEq] at h
      rw [h] at hc
      exact OURule_reason_ne_empty u ctx reason cause hc
  | anyOU us =>
    cases hc : (RequireAnyOU us).Check ctx with
    | panicked => simp [AnyOURule.toPRule, hc] at h
    | returned err =>
      simp only [AnyOURule.toPRule, hc, Option.map, Option.some.injEq] at h
      rw [h] at hc
      exact AnyOURule_reason_ne_empty us ctx reason cause hc
  | role x =>
    simp only [Rule.toPRule, Option.map, Option.some.injEq, RoleRule.toRule, pureRule, RoleRule.Check, RequireRole] at h
    split at h
    · simp [Errorf_w] at h
    · split at h
      · simp at h
      · split at h
        · simp only [NewAccessError, Option.some.injEq, GoError.accessError.injEq] at h
          rw [← h.1]
          exact String_ne_empty_of_data _ (by simp [String.data_append])
        · simp at h
  | anyRole xs =>
    simp only [Rule.toPRule, Option.map, Option.some.injEq, AnyRoleRule.toRule, pureRule, AnyRoleRule.Check, RequireAnyRole] at h
    split at h
    · simp [Errorf_w] at h
    · split at h
      · simp at h
      · split at h
        · simp at h
        · simp only [NewAccessError, Option.some.injEq, GoError.accessError.injEq] at h
          rw [← h.1]
          exact String_ne_empty_of_data _ (by simp [String.data_append])
  | attributeValue name value =>
    simp only [Rule.toPRule, Option.map, Option.some.injEq, AttributeRule.toRule, pureRule, AttributeRule.Check, RequireAttribute] at h
    split at h
    · simp [Errorf_w] at h
    · split at h
      · simp only [NewAccessError, Option.some.injEq, GoError.accessError.injEq] at h
        rw [← h.1]
        exact String_ne_empty_of_data _ (by simp [String.data_append])
      · split at h
        · simp only [NewAccessError, Option.some.injEq, GoError.accessError.injEq] at h
          rw [← h.1]
          exact String_ne_empty_of_data _ (by simp [String.data_append])
        · simp at h
  | hasAttribute name =>
    simp only [Rule.toPRule, Option.map, Option.some.injEq, HasAttributeRule.toRule, pureRule, HasAttributeRule.Check,
      RequireHasAttribute] at h
    split at h
    · simp [Errorf_w] at h
    · split at h
      · simp only [NewAccessError, Option.some.injEq, GoError.accessError.injEq] at h
        rw [← h.1]
        exact String_ne_empty_of_data _ (by simp [String.data_append])
      · simp at h
  | hlfAdmin =>
    simp only [Rule.toPRule, Option.map, Option.some.injEq, IsHLFAdmintRule.toRule, pureRule, IsHLFAdmintRule.Check] at h
    split at h
    · simp only [WrapAccessError, Option.some.injEq, GoError.accessError.injEq] at h
      rw [← h.1]
      decide
    · simp at h
  | hlfClient =>
    simp only [Rule.toPRule, Option.map, Option.some.injEq, IsHLFClientRule.toRule, pureRule, IsHLFClientRule.Check] at h
    split at h
    · simp only [WrapAccessError, Option.some.injEq, GoError.accessError.injEq] at h
      rw [← h.1]
      decide
    · simp at h
  | alwaysDeny message =>
    simp only [Rule.toPRule, Option.map, Option.some.injEq, AlwaysDenyRule.toRule, pureRule, AlwaysDenyRule.Check, AlwaysDeny] at h
    split at h
    · simp only [NewAccessError, Option.some.injEq, GoError.accessError.injEq] at h
      rw [← h.1]
      decide
    · rename_i hm
      simp only [NewAccessError, Option.some.injEq, GoError.accessError.injEq] at h
      rw [← h.1]
      exact hm


theorem PRuleTree_reason_ne_empty {σ : Type} (t : PRuleTree σ)
    (ht : t.leavesAll BuiltinLeaf) (ctx : TransactionContext) (s : σ) (reason : String)
    (cause : Option GoError)
    (h : (t.toPRule.Check ctx s).map Prod.fst
      = some (some (GoError.accessError reason cause))) :
    reason ≠ "" := by
  cases t with
  | leaf r =>
    simp only [PRuleTree.leavesAll] at ht
    exact BuiltinLeaf_reason_ne_empty r ht ctx s reason cause h
  | and children =>
    simp only [PRuleTree.toPRule, PAndRule.toPRule, PAndRule.Check] at h
    split at h
    · simp at h
    · split at h
      · simp only [NewAccessError, Option.map, Option.some.injEq,
          GoError.accessError.injEq] at h
        rw [← h.1]
        exact String_ne_empty_of_data _ (by simp [String.data_append])
      · simp at h
  | or children =>
    simp only [PRuleTree.toPRule, POrRule.toPRule, POrRule.Check] at h
    split at h
    · simp only [NewAccessError, Option.map, Option.some.injEq,
        GoError.accessError.injEq] at h
      rw [← h.1]
      decide
    · split at h
      · simp at h
      · simp at h
      · simp only [NewAccessError, Option.map, Option.some.injEq,
          GoError.accessError.injEq] at h
        rw [← h.1]
        exact String_ne_empty_of_data _ (by simp [String.data_append])
  | not child =>
    simp only [PRuleTree.toPRule, PNotRule.toPRule, PNotRule.Check] at h
    split at h
    · simp at h
    · simp only [NewAccessError, Option.map, Option.some.injEq,
        GoError.accessError.injEq] at h
      rw [← h.1]
      decide
    · simp at h

/-- C17: for every rule tree composed only of the built-in rules (the identity
predicates, `AlwaysDeny`, `And`, `Or`, `Not`; no `Custom` leaf), evaluated directly,
through the controller or through `CheckAccess`, and for every context: whenever `Check`
returns an `AccessError`, the reason of that `AccessError` is a non-empty string. The
trees are taken with the OU rules as the code has them, so a call may also panic; a
call that panics returns nothing. -/
theorem builtin_AccessError_reason_ne_empty {σ : Type} (t : PRuleTree σ)
    (ts : List (PRuleTree σ)) (ctx : TransactionContext) (s : σ) (reason : String)
    (cause : Option GoError)
    (ht : t.leavesAll BuiltinLeaf) (hts : PRuleTree.leavesAllList BuiltinLeaf ts) :
    ((t.toPRule.Check ctx s).map Prod.fst = some (some (GoError.accessError reason cause))
      → reason ≠ "") ∧
    (((PNew (PRuleTree.toPRules ts)).Check ctx s).map Prod.fst
        = some (some (GoError.accessError reason cause))
      → reason ≠ "") ∧
    ((PCheckAccess ctx (PRuleTree.toPRules ts) s).map Prod.fst
        = some (some (GoError.accessError reason cause))
      → reason ≠ "") := by
  have hctl : ((PNew (PRuleTree.toPRules ts)).Check ctx s).map Prod.fst
      = some (some (GoError.accessError reason cause)) → reason ≠ "" := by
    intro h
    have hloop : (Pcontroller.loop ctx (PRuleTree.toPRules ts) s).map Prod.fst
        = some (some (GoError.accessError reason cause)) := by
      simp only [Pcontroller.Check, PNew] at h
      split at h
      · simp at h
      · exact h
    obtain ⟨r, hr, s1, hs1⟩ := Pcontroller_loop_some_mem ctx _ s _ hloop
    obtain ⟨t2, ht2, rfl⟩ := PRuleTree_mem_toPRules BuiltinLeaf ts hts r hr
    exact PRuleTree_reason_ne_empty t2 ht2 ctx s1 reason cause hs1
  exact ⟨PRuleTree_reason_ne_empty t ht ctx s reason cause, hctl, hctl⟩

/-- Witness of C17: `And(RequireRole("admin"), RequireOU("manufacturing"))` for a caller
with role `admin` and the single unit `sales` is denied with a reason naming rule 2
only; for a caller without a certificate the same call panics. -/
theorem builtin_AccessError_reason_ne_empty_witness :
    ((PRuleTree.and [.leaf (RequireRole "admin").toRule.toPRule,
        .leaf (RequireOU "manufacturing").toPRule]).toPRule.Check sampleCtx ()).map Prod.fst
      = some (some (GoError.accessError
          ("AND rule failed: rule 2: access error: " ++
            "required OU 'manufacturing', MSP: Org1MSP") none)) ∧
    "AND rule failed: rule 2: access error: required OU 'manufacturing', MSP: Org1MSP"
      ≠ "" ∧
    (PRuleTree.and [.leaf (RequireRole "admin").toRule.toPRule,
        .leaf (RequireOU "manufacturing").toPRule]).toPRule.Check nilCertCtx () = none :=
  have hl : (PRuleTree.and [.leaf ((RequireRole "admin").toRule.toPRule : PRule Unit),
      .leaf (RequireOU "manufacturing").toPRule]).leavesAll BuiltinLeaf := by
    simp only [PRuleTree.leavesAll, PRuleTree.leavesAllList, and_true]
    exact ⟨BuiltinLeaf.role "admin", BuiltinLeaf.ou "manufacturing"⟩
  ⟨by decide,
   (builtin_AccessError_reason_ne_empty
      (PRuleTree.and [.leaf ((RequireRole "admin").toRule.toPRule : PRule Unit),
        .leaf (RequireOU "manufacturing").toPRule])
      [] sampleCtx ()
      "AND rule failed: rule 2: access error: required OU 'manufacturing', MSP: Org1MSP"
      none hl trivial).1 (by decide),
   by decide⟩

end hyperacc
